import Mathlib

/-!
Shallow embedding of the `lune-std-ffi` crate (value coercion, range
clamping, scalar memory surface, variadic argument promotion, signature
construction and the callback trampoline) together with proofs about the
behaviour of those functions.

Conventions of the embedding:

* Lua floats (`f64`) are modelled by `F64`: a finite rational value or one
  of the special values `+inf`, `-inf`, `nan`.  All floating-point
  operations that the embedded code performs on finite values
  (truncation, exact subtraction of a value from its truncation, absolute
  value, comparison against `f64::EPSILON`) are exact in binary64 for the
  inputs on which the code performs them, so the rational model is
  faithful there.  Saturating casts (`as i64`, `as u64`) and rounding
  casts (`as f32`, integer `as f64`) are modelled explicitly.
* Machine integers are `Int`/`Nat` with explicit reduction modulo `2^w`
  where the Rust code can wrap.  Arithmetic overflow of `i64` (which is
  wrap-around in release builds) is modelled by `wrapI64`.
* Memory is a map from byte addresses to cells.  Integer and pointer data
  serialises to little-endian bytes (the crate only targets little-endian
  hosts in practice and reads/writes with native endianness); float data
  is stored as opaque fragments carrying the float value, in the style of
  CompCert memvals, since binary64 bit patterns are not re-interpreted by
  any code path a claim exercises.
* Compile-time `cfg!` configuration is modelled by an explicit `Target`
  record.
-/

namespace LuneFFI

/-- Decidable equality for `Except`, so that concrete runs of the
embedded functions can be checked by `decide`. -/
instance {ε α : Type _} [DecidableEq ε] [DecidableEq α] : DecidableEq (Except ε α) :=
  fun a b =>
    match a, b with
    | Except.ok x, Except.ok y =>
        if h : x = y then Decidable.isTrue (by rw [h])
        else Decidable.isFalse (by intro hc; cases hc; exact h rfl)
    | Except.error e, Except.error f =>
        if h : e = f then Decidable.isTrue (by rw [h])
        else Decidable.isFalse (by intro hc; cases hc; exact h rfl)
    | Except.ok _, Except.error _ => Decidable.isFalse (by intro hc; cases hc)
    | Except.error _, Except.ok _ => Decidable.isFalse (by intro hc; cases hc)

/-- Architectures distinguished by the crate's `cfg!` checks. -/
inductive Arch where
  | x86
  | x86_64
  | arm
  | aarch64
  | powerpc
  | otherArch
deriving DecidableEq, Repr

/-- The compile-time configuration the Rust code branches on via `cfg!`. -/
structure Target where
  ptr64 : Bool
  windows : Bool
  unixLike : Bool
  arch : Arch
deriving DecidableEq, Repr

/-- Standard 64-bit Linux x86-64 configuration. -/
def tgt64 : Target := ⟨true, false, true, Arch.x86_64⟩

/-- A 32-bit x86 Windows configuration, used to exercise the 32-bit branches. -/
def tgt32win : Target := ⟨false, true, false, Arch.x86⟩

/-- Size in bytes of `*mut c_void` on the target. -/
def pointerSize (t : Target) : Nat := if t.ptr64 then 8 else 4

/-- Model of an `f64` value: a finite rational or a special value. -/
inductive F64 where
  | finite (q : ℚ)
  | posInf
  | negInf
  | nan
deriving DecidableEq, Repr

namespace F64

/-- Model of `f64::is_finite`. -/
def isFinite : F64 → Bool
  | finite _ => true
  | _ => false

/-- Negation of a float value. -/
def neg : F64 → F64
  | finite q => finite (-q)
  | posInf => negInf
  | negInf => posInf
  | nan => nan

end F64

/-- Truncation toward zero of a rational, as an integer (model of
`f64::trunc`): truncating division of the numerator by the denominator. -/
def truncInt (q : ℚ) : Int := q.num.tdiv q.den

/-- Truncation toward zero of a rational, as a rational. -/
def ratTrunc (q : ℚ) : ℚ := (truncInt q : ℚ)

/-- Absolute value of a rational (model of `f64::abs`). -/
def ratAbs (q : ℚ) : ℚ := if q < 0 then -q else q

/-- Model of `f64::EPSILON`, which is `2^-52`. -/
def f64Epsilon : ℚ := mkRat 1 (2 ^ 52)

/-- Saturating conversion of an exact integer to the `i64` range
(the final clamping step of Rust's saturating `f64 as i64` cast). -/
def satI64 (i : Int) : Int :=
  if i < -(2 ^ 63) then -(2 ^ 63)
  else if 2 ^ 63 - 1 < i then 2 ^ 63 - 1
  else i

/-- Saturating conversion of an exact integer to the `u64` range
(the final clamping step of Rust's saturating `f64 as u64` cast). -/
def satU64 (i : Int) : Nat :=
  if i < 0 then 0
  else if (2 ^ 64 - 1 : Int) < i then 2 ^ 64 - 1
  else i.toNat

/-- Round a rational to the nearest integer, ties to even
(the rounding step of IEEE-754 round-to-nearest-even). -/
def rne (x : ℚ) : ℤ :=
  let f := ⌊x⌋
  let r := x - (f : ℚ)
  if r < 1 / 2 then f
  else if 1 / 2 < r then f + 1
  else if f % 2 = 0 then f else f + 1

/-- Round a positive rational to the binary floating-point grid with
`mantBits` fractional mantissa bits, minimum unbiased-ulp exponent
`minExp` and overflow threshold `maxVal` (round to nearest, ties to
even; results at or above `maxVal` become `+inf`). -/
def roundPos (a : ℚ) (mantBits : Nat) (minExp : Int) (maxVal : ℚ) : F64 :=
  let e : Int := max minExp (Int.log 2 a - (mantBits : Int))
  let m := rne (a / (2 : ℚ) ^ e)
  let v := (m : ℚ) * (2 : ℚ) ^ e
  if maxVal ≤ v then F64.posInf else F64.finite v

/-- Model of the Rust `as f32` cast applied to an `f64` value
(round to nearest even on the binary32 grid, overflow to infinity). -/
def asF32 : F64 → F64
  | F64.finite q =>
      if q = 0 then F64.finite 0
      else if 0 < q then roundPos q 23 (-149) (2 ^ 128)
      else F64.neg (roundPos (-q) 23 (-149) (2 ^ 128))
  | F64.posInf => F64.posInf
  | F64.negInf => F64.negInf
  | F64.nan => F64.nan

/-- Model of the Rust `as f64` cast applied to an exact integer
(round to nearest even on the binary64 grid). -/
def intAsF64 (i : Int) : F64 :=
  if i = 0 then F64.finite 0
  else if 0 < i then roundPos (i : ℚ) 52 (-1074) (2 ^ 1024)
  else F64.neg (roundPos (-(i : ℚ)) 52 (-1074) (2 ^ 1024))

/-- Model of the Rust `as f32` cast applied to an exact integer
(round to nearest even on the binary32 grid). -/
def intAsF32 (i : Int) : F64 :=
  if i = 0 then F64.finite 0
  else if 0 < i then roundPos (i : ℚ) 23 (-149) (2 ^ 128)
  else F64.neg (roundPos (-(i : ℚ)) 23 (-149) (2 ^ 128))

/-- The `__ptr` field of a cdata table as the code inspects it:
a light-userdata, nil, or a value of any other kind. -/
inductive PtrField where
  | nilF
  | lud (a : Nat)
  | otherF
deriving DecidableEq, Repr

/-- The `code` field of a `__ctype` descriptor table. -/
inductive DescCode where
  | nilC
  | strC (s : String)
  | otherC
deriving DecidableEq, Repr

/-- The `__ctype` field of a cdata table: absent, a string spelling,
a descriptor table, or a value of any other kind. -/
inductive CTypeField where
  | nilT
  | strT (s : String)
  | desc (code : DescCode)
  | otherT
deriving DecidableEq, Repr

/-- The three fields of a script table the crate ever inspects
(`__ffi_cdata`, `__ptr`, `__ctype`).  `marker` records whether
`__ffi_cdata` holds boolean `true`. -/
structure CDataTable where
  marker : Bool
  ptr : PtrField
  ctype : CTypeField
deriving DecidableEq, Repr

/-- Model of the script values (`mlua::Value`) the crate distinguishes.
Strings are byte lists; tables are restricted to the three fields the
code reads. -/
inductive LuaValue where
  | nil
  | boolean (b : Bool)
  | integer (i : Int)
  | number (x : F64)
  | str (s : List Nat)
  | lightuserdata (a : Nat)
  | table (t : CDataTable)
deriving DecidableEq, Repr

/-- Well-formedness of a script value: Lua integers are `i64` and
light-userdata wrap a pointer-sized address.  This is an invariant of
the host runtime, not something the crate checks. -/
def LuaValue.wf : LuaValue → Prop
  | LuaValue.integer i => -(2 ^ 63) ≤ i ∧ i < 2 ^ 63
  | LuaValue.lightuserdata a => a < 2 ^ 64
  | _ => True

instance : DecidablePred LuaValue.wf := by
  intro v
  cases v <;> simp [LuaValue.wf] <;> infer_instance

/-- The primitive type codes (`TypeCode` in `types.rs`). -/
inductive TypeCode where
  | void
  | int8
  | uint8
  | int16
  | uint16
  | int32
  | uint32
  | int64
  | uint64
  | intptr
  | uintptr
  | float32
  | float64
  | pointer
deriving DecidableEq, Repr

/-- Whitespace test used by the trimming step of `normalize_code`. -/
def isSpaceChar (c : Char) : Bool :=
  c = ' ' ∨ c = '\t' ∨ c = '\n' ∨ c = '\r'

/-- ASCII lower-casing of one character (`char::to_ascii_lowercase`). -/
def lowerChar (c : Char) : Char :=
  if 'A' ≤ c ∧ c ≤ 'Z' then Char.ofNat (c.toNat + 32) else c

/-- Model of `types::normalize_code`: trim surrounding whitespace and
ASCII-lower-case, implemented over the character list so concrete runs
reduce in the kernel. -/
def normalize_code (code : String) : String :=
  String.mk ((((code.data.dropWhile isSpaceChar).reverse.dropWhile
    isSpaceChar).reverse).map lowerChar)

/-- Model of `TypeCode::from_code` in `types.rs`, including the
target-dependent resolution of `long`/`unsigned long`. -/
def TypeCode.from_code (t : Target) (code : String) : Except String TypeCode :=
  match code with
  | "void" => Except.ok TypeCode.void
  | "int8" => Except.ok TypeCode.int8
  | "sint8" => Except.ok TypeCode.int8
  | "uint8" => Except.ok TypeCode.uint8
  | "int16" => Except.ok TypeCode.int16
  | "sint16" => Except.ok TypeCode.int16
  | "uint16" => Except.ok TypeCode.uint16
  | "int32" => Except.ok TypeCode.int32
  | "sint32" => Except.ok TypeCode.int32
  | "int" => Except.ok TypeCode.int32
  | "uint32" => Except.ok TypeCode.uint32
  | "unsigned int" => Except.ok TypeCode.uint32
  | "int64" => Except.ok TypeCode.int64
  | "sint64" => Except.ok TypeCode.int64
  | "long long" => Except.ok TypeCode.int64
  | "uint64" => Except.ok TypeCode.uint64
  | "unsigned long long" => Except.ok TypeCode.uint64
  | "long" =>
      if t.ptr64 && !t.windows then Except.ok TypeCode.int64
      else Except.ok TypeCode.int32
  | "unsigned long" =>
      if t.ptr64 && !t.windows then Except.ok TypeCode.uint64
      else Except.ok TypeCode.uint32
  | "size_t" => Except.ok TypeCode.uintptr
  | "uintptr_t" => Except.ok TypeCode.uintptr
  | "ssize_t" => Except.ok TypeCode.intptr
  | "intptr_t" => Except.ok TypeCode.intptr
  | "ptrdiff_t" => Except.ok TypeCode.intptr
  | "float" => Except.ok TypeCode.float32
  | "double" => Except.ok TypeCode.float64
  | "pointer" => Except.ok TypeCode.pointer
  | "void*" => Except.ok TypeCode.pointer
  | other => Except.error ("Unsupported primitive type code " ++ other)

/-- Model of `types::lua_value_to_i64`.  The float branch requires the
value to be finite and within `f64::EPSILON` of its truncation, then
returns the truncation converted with Rust's saturating `as i64` cast.
The subtraction `truncated - n` and its absolute value are exact in
binary64 for every finite input, so the rational model is faithful. -/
def lua_value_to_i64 (v : LuaValue) : Except String Int :=
  match v with
  | LuaValue.integer i => Except.ok i
  | LuaValue.number x =>
      match x with
      | F64.finite q =>
          if f64Epsilon < ratAbs (ratTrunc q - q) then
            Except.error ("numeric argument must be integral")
          else
            Except.ok (satI64 (truncInt q))
      | _ => Except.error ("numeric argument must be finite")
  | LuaValue.boolean b => Except.ok (if b then 1 else 0)
  | _ => Except.error ("expected numeric value")

/-- Model of `types::lua_value_to_u64`: coerce through the signed path
and reject negatives; `signed as u64` is the identity on non-negative
values. -/
def lua_value_to_u64 (v : LuaValue) : Except String Nat := do
  let signed ← lua_value_to_i64 v
  if signed < 0 then
    Except.error ("negative value provided for unsigned argument")
  else
    Except.ok signed.toNat

/-- Wrap an integer into the `i64` range, the release-mode (two's
complement wrap-around) semantics of `i64` overflow in Rust. -/
def wrapI64 (x : Int) : Int := (x + 2 ^ 63) % 2 ^ 64 - 2 ^ 63

/-- Model of `types::clamp_signed`.  `1i64 << (bits - 1)` and the
negation/subtraction producing `min`/`max` wrap in the `i64` range;
for `bits = 64` the shift yields `i64::MIN` and the wrapped bounds are
`i64::MIN` and `i64::MAX`. -/
def clamp_signed (value : Int) (bits : Nat) : Except String Int :=
  let shifted := wrapI64 (2 ^ (bits - 1))
  let min := wrapI64 (-shifted)
  let max := wrapI64 (shifted - 1)
  if value < min ∨ max < value then
    Except.error ("signed argument out of range for " ++ toString bits ++ "-bit integer")
  else
    Except.ok value

/-- The ceiling used by `types::clamp_unsigned`: `u64::MAX` for 64 bits
(special-cased in the source to avoid overflowing `1u64 << 64`),
`(1u64 << bits) - 1` otherwise. -/
def clampUnsignedMax (bits : Nat) : Nat :=
  if bits = 64 then 2 ^ 64 - 1 else 2 ^ bits - 1

/-- Model of `types::clamp_unsigned`. -/
def clamp_unsigned (value : Nat) (bits : Nat) : Except String Nat :=
  if clampUnsignedMax bits < value then
    Except.error ("unsigned argument out of range for " ++ toString bits ++ "-bit integer")
  else
    Except.ok value

/-- A memory cell: a raw byte, or an opaque fragment of a stored float
value (index `i` of the 4 or 8 cells the store covered). -/
inductive Cell where
  | byte (b : Nat)
  | frag (x : F64) (wide : Bool) (i : Nat)
deriving DecidableEq, Repr

/-- Byte-addressed memory. -/
def Mem : Type := Nat → Cell

/-- Reading one byte from a cell; float fragments have no defined byte
view in the model and read as zero (no claim exercises that path). -/
def readByte (m : Mem) (p : Nat) : Nat :=
  match m p with
  | Cell.byte b => b
  | Cell.frag _ _ _ => 0

/-- Update a single memory cell. -/
def memWrite (m : Mem) (p : Nat) (c : Cell) : Mem :=
  fun x => if x = p then c else m x

/-- Read `k` bytes at `p` as a little-endian unsigned integer. -/
def leRead (m : Mem) (p : Nat) : Nat → Nat
  | 0 => 0
  | k + 1 => readByte m p + 256 * leRead m (p + 1) k

/-- Write the low `k` bytes of `n` at `p`, little-endian. -/
def leWrite (m : Mem) (p : Nat) (n : Nat) : Nat → Mem
  | 0 => m
  | k + 1 => leWrite (memWrite m p (Cell.byte (n % 256))) (p + 1) (n / 256) k

/-- Write the `k` fragment cells of a float value at `p`. -/
def fragWrite (m : Mem) (p : Nat) (x : F64) (wide : Bool) : Nat → Mem
  | 0 => m
  | k + 1 => memWrite (fragWrite m p x wide k) (p + k) (Cell.frag x wide k)

/-- The `k` cells starting at `p` are exactly the fragments of `x`. -/
def fragsOk (m : Mem) (p : Nat) (x : F64) (wide : Bool) (k : Nat) : Prop :=
  ∀ i, i < k → m (p + i) = Cell.frag x wide i

instance (m : Mem) (p : Nat) (x : F64) (wide : Bool) (k : Nat) :
    Decidable (fragsOk m p x wide k) :=
  Nat.decidableBallLT k fun i _ => m (p + i) = Cell.frag x wide i

/-- Read a float of width `k` (4 or 8 cells) at `p`: if the cells hold a
coherently stored float of the right width, that value; the model leaves
any other bit pattern as zero. -/
def readFrag (m : Mem) (p : Nat) (wide : Bool) (k : Nat) : F64 :=
  match m p with
  | Cell.frag x w 0 =>
      if w = wide ∧ fragsOk m p x w k then x else F64.finite 0
  | _ => F64.finite 0

/-- Interpret `k` little-endian bytes at `p` as a signed two's-complement
integer of `8 * k` bits. -/
def sext (u : Nat) (bits : Nat) : Int :=
  if u < 2 ^ (bits - 1) then (u : Int) else (u : Int) - 2 ^ bits

/-- Model of `native::lua_value_to_pointer` (the memory-surface pointer
coercion, used by `store_scalar` for the `pointer` code): nil is null,
light-userdata passes through, non-negative integers and finite
non-negative integral numbers reinterpret as addresses (truncated to the
pointer width by the `as usize` cast), cdata tables yield their `__ptr`
field, everything else fails. -/
def lua_value_to_pointer (t : Target) (v : LuaValue) : Except String Nat :=
  match v with
  | LuaValue.nil => Except.ok 0
  | LuaValue.lightuserdata a => Except.ok a
  | LuaValue.integer i =>
      if i < 0 then Except.error ("pointer value must be non-negative")
      else Except.ok (i.toNat % 2 ^ (8 * pointerSize t))
  | LuaValue.number x =>
      match x with
      | F64.finite q =>
          if q < 0 then Except.error ("pointer value must be non-negative")
          else if f64Epsilon < ratAbs (ratTrunc q - q) then
            Except.error ("pointer value must be integral")
          else
            Except.ok (satU64 (truncInt q) % 2 ^ (8 * pointerSize t))
      | _ => Except.error ("pointer value must be finite")
  | LuaValue.table tb =>
      if tb.marker then
        match tb.ptr with
        | PtrField.lud a => Except.ok a
        | PtrField.nilF => Except.ok 0
        | PtrField.otherF => Except.error ("cdata object missing native pointer")
      else
        Except.error ("cannot convert table value to native pointer")
  | _ => Except.error ("cannot convert value to native pointer")

/-- Model of `native::store_scalar`: coerce the script value per the
typed rules for `ty` and write it at `p`. -/
def store_scalar (t : Target) (m : Mem) (p : Nat) (ty : TypeCode) (v : LuaValue) :
    Except String Mem :=
  match ty with
  | TypeCode.void => Except.error ("cannot store value for void type")
  | TypeCode.int8 => do
      let x ← clamp_signed (← lua_value_to_i64 v) 8
      Except.ok (leWrite m p (x % (2 ^ 8 : Int)).toNat 1)
  | TypeCode.uint8 => do
      let x ← clamp_unsigned (← lua_value_to_u64 v) 8
      Except.ok (leWrite m p x 1)
  | TypeCode.int16 => do
      let x ← clamp_signed (← lua_value_to_i64 v) 16
      Except.ok (leWrite m p (x % (2 ^ 16 : Int)).toNat 2)
  | TypeCode.uint16 => do
      let x ← clamp_unsigned (← lua_value_to_u64 v) 16
      Except.ok (leWrite m p x 2)
  | TypeCode.int32 => do
      let x ← clamp_signed (← lua_value_to_i64 v) 32
      Except.ok (leWrite m p (x % (2 ^ 32 : Int)).toNat 4)
  | TypeCode.uint32 => do
      let x ← clamp_unsigned (← lua_value_to_u64 v) 32
      Except.ok (leWrite m p x 4)
  | TypeCode.int64 => do
      let x ← lua_value_to_i64 v
      Except.ok (leWrite m p (x % (2 ^ 64 : Int)).toNat 8)
  | TypeCode.uint64 => do
      let x ← lua_value_to_u64 v
      Except.ok (leWrite m p x 8)
  | TypeCode.intptr => do
      let bits := if t.ptr64 then 64 else 32
      let x ← clamp_signed (← lua_value_to_i64 v) bits
      if t.ptr64 then
        Except.ok (leWrite m p (x % (2 ^ 64 : Int)).toNat 8)
      else
        Except.ok (leWrite m p (x % (2 ^ 32 : Int)).toNat 4)
  | TypeCode.uintptr => do
      let bits := if t.ptr64 then 64 else 32
      let x ← clamp_unsigned (← lua_value_to_u64 v) bits
      if t.ptr64 then
        Except.ok (leWrite m p x 8)
      else
        Except.ok (leWrite m p (x % 2 ^ 32) 4)
  | TypeCode.float32 => do
      let x ← match v with
        | LuaValue.number n => Except.ok (asF32 n)
        | LuaValue.integer i => Except.ok (intAsF32 i)
        | LuaValue.boolean b => Except.ok (if b then F64.finite 1 else F64.finite 0)
        | _ => Except.error ("expected numeric value for float storage")
      Except.ok (fragWrite m p x false 4)
  | TypeCode.float64 => do
      let x ← match v with
        | LuaValue.number n => Except.ok n
        | LuaValue.integer i => Except.ok (intAsF64 i)
        | LuaValue.boolean b => Except.ok (if b then F64.finite 1 else F64.finite 0)
        | _ => Except.error ("expected numeric value for double storage")
      Except.ok (fragWrite m p x true 8)
  | TypeCode.pointer => do
      let a ← lua_value_to_pointer t v
      Except.ok (leWrite m p a (pointerSize t))

/-- Model of `native::load_scalar`: read the value stored at `p` per
`ty` and convert it to a script value.  Note the `pointer` branch wraps
the stored address as a light-userdata unconditionally, with no null
check. -/
def load_scalar (t : Target) (m : Mem) (p : Nat) (ty : TypeCode) :
    Except String LuaValue :=
  match ty with
  | TypeCode.void => Except.error ("cannot read value of void type")
  | TypeCode.int8 => Except.ok (LuaValue.integer (sext (leRead m p 1) 8))
  | TypeCode.uint8 => Except.ok (LuaValue.integer (leRead m p 1))
  | TypeCode.int16 => Except.ok (LuaValue.integer (sext (leRead m p 2) 16))
  | TypeCode.uint16 => Except.ok (LuaValue.integer (leRead m p 2))
  | TypeCode.int32 => Except.ok (LuaValue.integer (sext (leRead m p 4) 32))
  | TypeCode.uint32 => Except.ok (LuaValue.integer (leRead m p 4))
  | TypeCode.int64 => Except.ok (LuaValue.integer (sext (leRead m p 8) 64))
  | TypeCode.uint64 =>
      let u := leRead m p 8
      if u ≤ 2 ^ 63 - 1 then Except.ok (LuaValue.integer u)
      else Except.ok (LuaValue.number (intAsF64 u))
  | TypeCode.intptr =>
      if t.ptr64 then Except.ok (LuaValue.integer (sext (leRead m p 8) 64))
      else Except.ok (LuaValue.integer (sext (leRead m p 4) 32))
  | TypeCode.uintptr =>
      if t.ptr64 then
        let u := leRead m p 8
        if u ≤ 2 ^ 63 - 1 then Except.ok (LuaValue.integer u)
        else Except.ok (LuaValue.number (intAsF64 u))
      else Except.ok (LuaValue.integer (leRead m p 4))
  | TypeCode.float32 => Except.ok (LuaValue.number (readFrag m p false 4))
  | TypeCode.float64 => Except.ok (LuaValue.number (readFrag m p true 8))
  | TypeCode.pointer =>
      Except.ok (LuaValue.lightuserdata (leRead m p (pointerSize t)))

/-- Write a list of raw bytes at `p` (the `memcpy` in `write_bytes`). -/
def writeList (m : Mem) (p : Nat) : List Nat → Mem
  | [] => m
  | b :: rest => writeList (memWrite m p (Cell.byte b)) (p + 1) rest

/-- Model of the `writeBytes` export: copy the string's bytes to `dest`
and, when `append_null` is true, a single 0 byte after them; a null
destination fails. -/
def write_bytes (m : Mem) (dest : Nat) (data : List Nat) (appendNull : Option Bool) :
    Except String Mem :=
  if dest = 0 then Except.error ("attempt to write to null pointer")
  else
    let m1 := writeList m dest data
    if appendNull.getD false then
      Except.ok (memWrite m1 (dest + data.length) (Cell.byte 0))
    else
      Except.ok m1

/-- Scan up to `fuel` bytes at `p` for a NUL terminator, returning the
bytes before it (the `CStr::from_ptr` read; the fuel bounds the scan,
which in C is the caller's obligation to terminate). -/
def readCString (m : Mem) (p : Nat) : Nat → Option (List Nat)
  | 0 => none
  | fuel + 1 =>
      let b := readByte m p
      if b = 0 then some []
      else (readCString m (p + 1) fuel).map (fun rest => b :: rest)

/-- Model of the `readString` export: with a length, read exactly that
many bytes; without, read up to the first NUL (exclusive); a null
pointer fails. -/
def read_string (m : Mem) (p : Nat) (len : Option Nat) (fuel : Nat) :
    Except String (List Nat) :=
  if p = 0 then Except.error ("attempt to read string from null pointer")
  else
    match len with
    | some k => Except.ok ((List.range k).map fun i => readByte m (p + i))
    | none =>
        match readCString m p fuel with
        | some s => Except.ok s
        | none => Except.error ("unterminated string")

/-- A pointer argument value: either a raw address, or the address of
the `i`-th owned string buffer pushed onto the call's anchor list (the
model keeps those addresses symbolic). -/
inductive Ptr where
  | addr (a : Nat)
  | strRef (i : Nat)
deriving DecidableEq, Repr

/-- Model of the `ArgValue` enum in `call.rs`: one variant per concrete
scalar width plus a raw pointer. -/
inductive ArgValue where
  | i8v (v : Int)
  | u8v (v : Nat)
  | i16v (v : Int)
  | u16v (v : Nat)
  | i32v (v : Int)
  | u32v (v : Nat)
  | i64v (v : Int)
  | u64v (v : Nat)
  | f32v (x : F64)
  | f64v (x : F64)
  | ptrv (p : Ptr)
deriving DecidableEq, Repr

/-- Model of the `CDataInfo` record extracted from a cdata table. -/
structure CDataInfo where
  ptr : Option Nat
  typeCode : Option TypeCode
deriving DecidableEq, Repr

/-- Model of `call::extract_cdata_info`: `none` when the `__ffi_cdata`
marker is not boolean `true`; otherwise the `__ptr` field (nil becomes
`none`, anything but a light-userdata fails) and the `__ctype` field
(string or descriptor spellings that fail to parse become `none`;
non-string, non-table field kinds fail). -/
def extract_cdata_info (t : Target) (tb : CDataTable) :
    Except String (Option CDataInfo) :=
  if tb.marker then do
    let p ← match tb.ptr with
      | PtrField.lud a => Except.ok (some a)
      | PtrField.nilF => Except.ok (none : Option Nat)
      | PtrField.otherF => Except.error ("cdata object missing native pointer")
    let tc ← match tb.ctype with
      | CTypeField.nilT => Except.ok (none : Option TypeCode)
      | CTypeField.strT s => Except.ok (TypeCode.from_code t (normalize_code s)).toOption
      | CTypeField.desc code =>
          match code with
          | DescCode.strC s => Except.ok (TypeCode.from_code t (normalize_code s)).toOption
          | DescCode.nilC => Except.ok (none : Option TypeCode)
          | DescCode.otherC => Except.error ("cdata descriptor missing string code")
      | CTypeField.otherT => Except.error ("cdata object has invalid ctype field")
    Except.ok (some ⟨p, tc⟩)
  else
    Except.ok none

/-- Model of `call::convert_cdata_variadic_argument`: require a storage
pointer, load the pointed-to value per the original type code, and
apply C default argument promotion (sub-32-bit integers widen to
32-bit int, `f32` widens to `f64`). -/
def convert_cdata_variadic_argument (t : Target) (m : Mem) (info : CDataInfo)
    (originalType : TypeCode) : Except String (ArgValue × TypeCode) := do
  let p ← match info.ptr with
    | some p => Except.ok p
    | none => Except.error ("cdata value missing native storage pointer")
  match originalType with
  | TypeCode.void => Except.error ("void type cannot be used as a variadic argument")
  | TypeCode.int8 => Except.ok (ArgValue.i32v (sext (leRead m p 1) 8), TypeCode.int32)
  | TypeCode.uint8 => Except.ok (ArgValue.i32v (leRead m p 1), TypeCode.int32)
  | TypeCode.int16 => Except.ok (ArgValue.i32v (sext (leRead m p 2) 16), TypeCode.int32)
  | TypeCode.uint16 => Except.ok (ArgValue.i32v (leRead m p 2), TypeCode.int32)
  | TypeCode.int32 => Except.ok (ArgValue.i32v (sext (leRead m p 4) 32), TypeCode.int32)
  | TypeCode.uint32 => Except.ok (ArgValue.u32v (leRead m p 4), TypeCode.uint32)
  | TypeCode.int64 => Except.ok (ArgValue.i64v (sext (leRead m p 8) 64), TypeCode.int64)
  | TypeCode.uint64 => Except.ok (ArgValue.u64v (leRead m p 8), TypeCode.uint64)
  | TypeCode.intptr =>
      if t.ptr64 then Except.ok (ArgValue.i64v (sext (leRead m p 8) 64), TypeCode.intptr)
      else Except.ok (ArgValue.i32v (sext (leRead m p 4) 32), TypeCode.intptr)
  | TypeCode.uintptr =>
      if t.ptr64 then Except.ok (ArgValue.u64v (leRead m p 8), TypeCode.uintptr)
      else Except.ok (ArgValue.u32v (leRead m p 4), TypeCode.uintptr)
  | TypeCode.float32 => Except.ok (ArgValue.f64v (readFrag m p false 4), TypeCode.float64)
  | TypeCode.float64 => Except.ok (ArgValue.f64v (readFrag m p true 8), TypeCode.float64)
  | TypeCode.pointer =>
      Except.ok (ArgValue.ptrv (Ptr.addr (leRead m p (pointerSize t))), TypeCode.pointer)

/-- Model of `call::convert_variadic_argument`: the inference applied to
a variadic-tail argument with no type hint.  The anchor list of owned
NUL-terminated string copies is threaded through explicitly. -/
def convert_variadic_argument (t : Target) (m : Mem) (v : LuaValue)
    (stringRefs : List (List Nat)) :
    Except String ((ArgValue × TypeCode) × List (List Nat)) :=
  match v with
  | LuaValue.nil =>
      Except.ok ((ArgValue.ptrv (Ptr.addr 0), TypeCode.pointer), stringRefs)
  | LuaValue.lightuserdata a =>
      Except.ok ((ArgValue.ptrv (Ptr.addr a), TypeCode.pointer), stringRefs)
  | LuaValue.table tb => do
      match ← extract_cdata_info t tb with
      | some info =>
          match info.typeCode with
          | some tc =>
              if tc = TypeCode.pointer then
                Except.ok ((ArgValue.ptrv (Ptr.addr (info.ptr.getD 0)), TypeCode.pointer),
                  stringRefs)
              else do
                let r ← convert_cdata_variadic_argument t m info tc
                Except.ok (r, stringRefs)
          | none =>
              match info.ptr with
              | some p =>
                  Except.ok ((ArgValue.ptrv (Ptr.addr p), TypeCode.pointer), stringRefs)
              | none =>
                  Except.error ("cannot infer C type for variadic cdata argument")
      | none => Except.error ("cannot infer C type for variadic table argument")
  | LuaValue.str s =>
      if (0 : Nat) ∈ s then Except.error ("string argument contains NUL byte")
      else
        Except.ok ((ArgValue.ptrv (Ptr.strRef stringRefs.length), TypeCode.pointer),
          stringRefs ++ [s ++ [0]])
  | LuaValue.boolean b =>
      Except.ok ((ArgValue.i32v (if b then 1 else 0), TypeCode.int32), stringRefs)
  | LuaValue.integer i =>
      if t.ptr64 then Except.ok ((ArgValue.i64v i, TypeCode.int64), stringRefs)
      else do
        let c ← clamp_signed i 32
        Except.ok ((ArgValue.i32v c, TypeCode.int32), stringRefs)
  | LuaValue.number x =>
      if x.isFinite then Except.ok ((ArgValue.f64v x, TypeCode.float64), stringRefs)
      else Except.error ("numeric argument must be finite")

/-- The libffi ABI selectors the crate can request explicitly. -/
inductive FfiAbi where
  | unix64
  | sysvAbi
  | win64
  | stdcallAbi
  | msCdecl
deriving DecidableEq, Repr

/-- Model of `signature::AbiChoice`. -/
inductive AbiChoice where
  | dflt
  | explicitAbi (abi : FfiAbi)
deriving DecidableEq, Repr

/-- Model of `AbiChoice::from_option`, with the `cfg_if` target chains
expressed as conditions on the `Target` record. -/
def AbiChoice.from_option (t : Target) (value : Option String) :
    Except String AbiChoice :=
  match value with
  | none => Except.ok AbiChoice.dflt
  | some s =>
      match s with
      | "cdecl" => Except.ok AbiChoice.dflt
      | "default" => Except.ok AbiChoice.dflt
      | "sysv" =>
          if t.arch = Arch.x86_64 ∧ t.unixLike then
            Except.ok (AbiChoice.explicitAbi FfiAbi.unix64)
          else if t.arch = Arch.x86 ∨ t.arch = Arch.arm ∨ t.arch = Arch.aarch64 ∨
              t.arch = Arch.powerpc then
            Except.ok (AbiChoice.explicitAbi FfiAbi.sysvAbi)
          else if t.windows ∧ t.arch = Arch.x86_64 then
            Except.ok (AbiChoice.explicitAbi FfiAbi.win64)
          else
            Except.error ("ABI sysv not supported on this target")
      | "stdcall" =>
          if t.arch = Arch.x86 then
            Except.ok (AbiChoice.explicitAbi FfiAbi.stdcallAbi)
          else
            Except.error ("ABI stdcall requires x86 architecture")
      | "ms_abi" =>
          if t.windows ∧ t.arch = Arch.x86 then
            Except.ok (AbiChoice.explicitAbi FfiAbi.msCdecl)
          else if t.windows ∧ t.arch = Arch.x86_64 then
            Except.ok (AbiChoice.explicitAbi FfiAbi.win64)
          else
            Except.error ("ABI ms_abi only available on Windows targets")
      | "ms_cdecl" =>
          if t.windows ∧ t.arch = Arch.x86 then
            Except.ok (AbiChoice.explicitAbi FfiAbi.msCdecl)
          else if t.windows ∧ t.arch = Arch.x86_64 then
            Except.ok (AbiChoice.explicitAbi FfiAbi.win64)
          else
            Except.error ("ABI ms_abi only available on Windows targets")
      | "win64" =>
          if t.windows then Except.ok (AbiChoice.explicitAbi FfiAbi.win64)
          else Except.error ("ABI win64 only available on Windows targets")
      | other => Except.error ("Unsupported ABI " ++ other)

/-- Model of `signature::CType`: a wrapped type code. -/
structure CType where
  code : TypeCode
deriving DecidableEq, Repr

/-- A type descriptor value as the signature parser sees it: a string
spelling, a descriptor table whose `code` field is a string (or is
absent / not a string, which `code = none` covers), or a value of any
other kind. -/
inductive TypeDesc where
  | strD (s : String)
  | descTable (code : Option String)
  | otherD
deriving DecidableEq, Repr

/-- Model of `CType::from_lua`. -/
def CType.from_lua (t : Target) (d : TypeDesc) : Except String CType :=
  match d with
  | TypeDesc.strD s => do
      let ty ← TypeCode.from_code t (normalize_code s)
      Except.ok ⟨ty⟩
  | TypeDesc.descTable code =>
      match code with
      | some c => do
          let ty ← TypeCode.from_code t (normalize_code c)
          Except.ok ⟨ty⟩
      | none => Except.error ("Type descriptor missing code field")
  | TypeDesc.otherD => Except.error ("Invalid type descriptor")

/-- Model of `signature::Signature`. -/
structure Signature where
  abi : AbiChoice
  result : CType
  args : List CType
  variadic : Bool
  fixed_count : Nat
deriving DecidableEq, Repr

/-- The signature table as script code supplies it. -/
structure SigTable where
  abi : Option String
  result : TypeDesc
  args : List TypeDesc
  variadic : Option Bool
  fixedCount : Option Nat
deriving DecidableEq, Repr

/-- Model of `Signature::from_table`: parse the ABI selector, result
type and argument types, default `variadic` to false and `fixedCount`
to the argument count, and reject `fixedCount` above the argument count
or, for non-variadic signatures, different from it. -/
def Signature.from_table (t : Target) (tbl : SigTable) : Except String Signature := do
  let abi ← AbiChoice.from_option t tbl.abi
  let result ← CType.from_lua t tbl.result
  let args ← tbl.args.mapM (CType.from_lua t)
  let variadic := tbl.variadic.getD false
  let fixed_count := tbl.fixedCount.getD args.length
  if args.length < fixed_count then
    Except.error ("Invalid signature: fixedCount exceeds number of arguments")
  else if ¬variadic ∧ fixed_count ≠ args.length then
    Except.error
      ("Invalid signature: fixedCount must equal number of arguments for non-variadic functions")
  else
    Except.ok ⟨abi, result, args, variadic, fixed_count⟩

/-- Size of the callback result scratch buffer (`CALLBACK_RESULT_SIZE`). -/
def callbackResultSize : Nat := 16

/-- A fully zeroed callback result slot. -/
def zeroSlot : List Cell := List.replicate callbackResultSize (Cell.byte 0)

/-- The low `k` little-endian bytes of `n` as memory cells. -/
def natLEBytes (n : Nat) : Nat → List Cell
  | 0 => []
  | k + 1 => Cell.byte (n % 256) :: natLEBytes (n / 256) k

/-- The `k` fragment cells of a float value. -/
def fragCells (x : F64) (wide : Bool) (k : Nat) : List Cell :=
  (List.range k).map fun i => Cell.frag x wide i

/-- Pad written cells with zero bytes up to the scratch size (the
buffer was `fill(0)`ed before the write). -/
def padSlot (c : List Cell) : List Cell :=
  c ++ List.replicate (callbackResultSize - c.length) (Cell.byte 0)

/-- Model of `CallbackData::pointer_from_value` (the pointer coercion
used for callback results): like the memory-surface rule but boolean
`false` is accepted as null and boolean `true` is rejected. -/
def pointer_from_value (t : Target) (v : LuaValue) : Except String Nat :=
  match v with
  | LuaValue.nil => Except.ok 0
  | LuaValue.lightuserdata a => Except.ok a
  | LuaValue.boolean false => Except.ok 0
  | LuaValue.boolean true =>
      Except.error ("cannot convert boolean true to pointer")
  | LuaValue.integer i =>
      if i < 0 then Except.error ("pointer value must be non-negative")
      else Except.ok (i.toNat % 2 ^ (8 * pointerSize t))
  | LuaValue.number x =>
      match x with
      | F64.finite q =>
          if q < 0 then Except.error ("pointer value must be non-negative")
          else if f64Epsilon < ratAbs (ratTrunc q - q) then
            Except.error ("pointer value must be integral")
          else
            Except.ok (satU64 (truncInt q) % 2 ^ (8 * pointerSize t))
      | _ => Except.error ("pointer value must be finite")
  | LuaValue.table tb =>
      if tb.marker then
        match tb.ptr with
        | PtrField.lud a => Except.ok a
        | PtrField.nilF => Except.ok 0
        | PtrField.otherF => Except.error ("cdata object missing native pointer")
      else
        Except.error ("cannot convert table value to pointer")
  | _ => Except.error ("cannot convert value to pointer")

/-- Model of `CallbackData::read_argument`: reinterpret the storage slot
of declared argument `index` per its declared type and produce a script
value; null pointers become nil here, unlike `load_scalar`. -/
def read_argument (t : Target) (m : Mem) (argPtrs : List Nat) (index : Nat)
    (ty : CType) : Except String LuaValue :=
  let p := argPtrs.getD index 0
  match ty.code with
  | TypeCode.void =>
      Except.error ("void type cannot be used as a callback argument")
  | TypeCode.int8 => Except.ok (LuaValue.integer (sext (leRead m p 1) 8))
  | TypeCode.uint8 => Except.ok (LuaValue.integer (leRead m p 1))
  | TypeCode.int16 => Except.ok (LuaValue.integer (sext (leRead m p 2) 16))
  | TypeCode.uint16 => Except.ok (LuaValue.integer (leRead m p 2))
  | TypeCode.int32 => Except.ok (LuaValue.integer (sext (leRead m p 4) 32))
  | TypeCode.uint32 => Except.ok (LuaValue.integer (leRead m p 4))
  | TypeCode.int64 => Except.ok (LuaValue.integer (sext (leRead m p 8) 64))
  | TypeCode.uint64 =>
      let u := leRead m p 8
      if u ≤ 2 ^ 63 - 1 then Except.ok (LuaValue.integer u)
      else Except.ok (LuaValue.number (intAsF64 u))
  | TypeCode.intptr =>
      if t.ptr64 then Except.ok (LuaValue.integer (sext (leRead m p 8) 64))
      else Except.ok (LuaValue.integer (sext (leRead m p 4) 32))
  | TypeCode.uintptr =>
      if t.ptr64 then
        let u := leRead m p 8
        if u ≤ 2 ^ 63 - 1 then Except.ok (LuaValue.integer u)
        else Except.ok (LuaValue.number (intAsF64 u))
      else Except.ok (LuaValue.integer (leRead m p 4))
  | TypeCode.float32 => Except.ok (LuaValue.number (readFrag m p false 4))
  | TypeCode.float64 => Except.ok (LuaValue.number (readFrag m p true 8))
  | TypeCode.pointer =>
      let a := leRead m p (pointerSize t)
      if a = 0 then Except.ok LuaValue.nil
      else Except.ok (LuaValue.lightuserdata a)

/-- The bytes `CallbackData::write_result` produces for the coerced
return value, or the coercion error.  Split out so the zero-fill-then-
write discipline of the buffer is explicit in `write_result`. -/
def write_result_bytes (t : Target) (sig : Signature) (v : LuaValue) :
    Except String (List Cell) :=
  match sig.result.code with
  | TypeCode.void => Except.ok []
  | TypeCode.int8 => do
      let x ← clamp_signed (← lua_value_to_i64 v) 8
      Except.ok (natLEBytes (x % (2 ^ 8 : Int)).toNat 1)
  | TypeCode.uint8 => do
      let x ← clamp_unsigned (← lua_value_to_u64 v) 8
      Except.ok (natLEBytes x 1)
  | TypeCode.int16 => do
      let x ← clamp_signed (← lua_value_to_i64 v) 16
      Except.ok (natLEBytes (x % (2 ^ 16 : Int)).toNat 2)
  | TypeCode.uint16 => do
      let x ← clamp_unsigned (← lua_value_to_u64 v) 16
      Except.ok (natLEBytes x 2)
  | TypeCode.int32 => do
      let x ← clamp_signed (← lua_value_to_i64 v) 32
      Except.ok (natLEBytes (x % (2 ^ 32 : Int)).toNat 4)
  | TypeCode.uint32 => do
      let x ← clamp_unsigned (← lua_value_to_u64 v) 32
      Except.ok (natLEBytes x 4)
  | TypeCode.int64 => do
      let x ← lua_value_to_i64 v
      Except.ok (natLEBytes (x % (2 ^ 64 : Int)).toNat 8)
  | TypeCode.uint64 => do
      let x ← lua_value_to_u64 v
      Except.ok (natLEBytes x 8)
  | TypeCode.intptr => do
      let x ← clamp_signed (← lua_value_to_i64 v) (if t.ptr64 then 64 else 32)
      if t.ptr64 then Except.ok (natLEBytes (x % (2 ^ 64 : Int)).toNat 8)
      else Except.ok (natLEBytes (x % (2 ^ 32 : Int)).toNat 4)
  | TypeCode.uintptr => do
      let x ← clamp_unsigned (← lua_value_to_u64 v) (if t.ptr64 then 64 else 32)
      if t.ptr64 then Except.ok (natLEBytes x 8)
      else Except.ok (natLEBytes (x % 2 ^ 32) 4)
  | TypeCode.float32 =>
      match v with
      | LuaValue.number n => Except.ok (fragCells (asF32 n) false 4)
      | LuaValue.integer i => Except.ok (fragCells (intAsF32 i) false 4)
      | LuaValue.boolean b =>
          Except.ok (fragCells (if b then F64.finite 1 else F64.finite 0) false 4)
      | _ => Except.error ("expected numeric value for float result")
  | TypeCode.float64 =>
      match v with
      | LuaValue.number n => Except.ok (fragCells n true 8)
      | LuaValue.integer i => Except.ok (fragCells (intAsF64 i) true 8)
      | LuaValue.boolean b =>
          Except.ok (fragCells (if b then F64.finite 1 else F64.finite 0) true 8)
      | _ => Except.error ("expected numeric value for double result")
  | TypeCode.pointer => do
      let a ← pointer_from_value t v
      Except.ok (natLEBytes a (pointerSize t))

/-- Model of `CallbackData::write_result`: zero the scratch slot, then
coerce the script return value per the signature result type and write
its bytes at the front.  The pair is the final slot contents and the
error, if any; every error leaves the slot fully zeroed because the
fill happens before any coercion. -/
def write_result (t : Target) (sig : Signature) (v : LuaValue) :
    List Cell × Option String :=
  match write_result_bytes t sig v with
  | Except.ok c => (padSlot c, none)
  | Except.error e => (zeroSlot, some e)

/-- Model of the boxed `CallbackData`: the signature, the pinned script
function (present unless the registry key was released), and whether the
host exposes a global `warn` function. -/
structure CallbackModel where
  sig : Signature
  fnKey : Option (List LuaValue → Except String LuaValue)
  warnPresent : Bool

/-- Model of `CallbackData::get_function`. -/
def get_function (cb : CallbackModel) :
    Except String (List LuaValue → Except String LuaValue) :=
  match cb.fnKey with
  | some f => Except.ok f
  | none => Except.error ("callback function has been released")

/-- Demarshal the declared arguments in order, starting at `start`. -/
def readCallbackArgs (t : Target) (m : Mem) (argPtrs : List Nat) (start : Nat) :
    List CType → Except String (List LuaValue)
  | [] => Except.ok []
  | ty :: rest => do
      let v ← read_argument t m argPtrs start ty
      let vs ← readCallbackArgs t m argPtrs (start + 1) rest
      Except.ok (v :: vs)

/-- Model of `CallbackData::invoke`: demarshal arguments, call the
pinned script function, marshal the return value.  The scratch slot was
zeroed by the trampoline before `invoke` runs, so an error before
`write_result` leaves it zeroed. -/
def CallbackData.invoke (t : Target) (cb : CallbackModel) (m : Mem)
    (argPtrs : List Nat) : List Cell × Option String :=
  match (do
      let vs ← readCallbackArgs t m argPtrs 0 cb.sig.args
      let f ← get_function cb
      f vs : Except String LuaValue) with
  | Except.error e => (zeroSlot, some e)
  | Except.ok ret => write_result t cb.sig ret

/-- Where an error report ends up: the host's global `warn` function or
the standard error stream. -/
inductive Report where
  | warnR (msg : String)
  | stderrR (msg : String)
deriving DecidableEq, Repr

/-- Model of `CallbackData::report_error`: prefix the message and send
it to `warn` when a global `warn` function exists, otherwise to the
standard error stream. -/
def report_error (cb : CallbackModel) (e : String) : Report :=
  let message := "ffi: error in callback: " ++ e
  if cb.warnPresent then Report.warnR message else Report.stderrR message

/-- Model of `callback_trampoline`: zero the result slot, run `invoke`,
and on error report it instead of propagating; the returned pair is the
final result slot the native caller observes plus the report, if any. -/
def callback_trampoline (t : Target) (cb : CallbackModel) (m : Mem)
    (argPtrs : List Nat) : List Cell × Option Report :=
  match CallbackData.invoke t cb m argPtrs with
  | (buf, none) => (buf, none)
  | (buf, some e) => (buf, some (report_error cb e))

/-- All-zero memory, the state `alloc` (via `calloc`) hands out. -/
def zeroMem : Mem := fun _ => Cell.byte 0

/-- The script values a type code can represent exactly: integer values
within the type's range for the integer codes (the script integer type
is `i64`, so `uint64`/`uintptr` values are capped at `2^63 - 1` by the
value domain itself), numbers on the `f32` grid for `float32`, all
numbers for `float64`, and pointer-width light-userdata for `pointer`. -/
def representable (t : Target) (c : TypeCode) (v : LuaValue) : Bool :=
  match c, v with
  | TypeCode.int8, LuaValue.integer i => decide (-(2 ^ 7) ≤ i ∧ i < 2 ^ 7)
  | TypeCode.uint8, LuaValue.integer i => decide (0 ≤ i ∧ i < 2 ^ 8)
  | TypeCode.int16, LuaValue.integer i => decide (-(2 ^ 15) ≤ i ∧ i < 2 ^ 15)
  | TypeCode.uint16, LuaValue.integer i => decide (0 ≤ i ∧ i < 2 ^ 16)
  | TypeCode.int32, LuaValue.integer i => decide (-(2 ^ 31) ≤ i ∧ i < 2 ^ 31)
  | TypeCode.uint32, LuaValue.integer i => decide (0 ≤ i ∧ i < 2 ^ 32)
  | TypeCode.int64, LuaValue.integer i => decide (-(2 ^ 63) ≤ i ∧ i < 2 ^ 63)
  | TypeCode.uint64, LuaValue.integer i => decide (0 ≤ i ∧ i < 2 ^ 63)
  | TypeCode.intptr, LuaValue.integer i =>
      if t.ptr64 then decide (-(2 ^ 63) ≤ i ∧ i < 2 ^ 63)
      else decide (-(2 ^ 31) ≤ i ∧ i < 2 ^ 31)
  | TypeCode.uintptr, LuaValue.integer i =>
      if t.ptr64 then decide (0 ≤ i ∧ i < 2 ^ 63)
      else decide (0 ≤ i ∧ i < 2 ^ 32)
  | TypeCode.float32, LuaValue.number x => decide (asF32 x = x)
  | TypeCode.float64, LuaValue.number _ => true
  | TypeCode.pointer, LuaValue.lightuserdata a => decide (a < 2 ^ (8 * pointerSize t))
  | _, _ => false

/-- A callback whose pinned script function always raises, used to
witness the error-capture behaviour. -/
def cbFail0 : CallbackModel :=
  ⟨⟨AbiChoice.dflt, ⟨TypeCode.int32⟩, [], false, 0⟩,
    some (fun _ => Except.error ("boom")), true⟩

theorem wrapI64_small {x : Int} (h1 : -(2 ^ 63) ≤ x) (h2 : x < 2 ^ 63) :
    wrapI64 x = x := by
  unfold wrapI64
  rw [Int.emod_eq_of_lt (by omega) (by norm_num; omega)]
  omega

theorem memWrite_self (m : Mem) (p : Nat) (c : Cell) : memWrite m p c p = c := by
  simp [memWrite]

theorem memWrite_other (m : Mem) (p q : Nat) (c : Cell) (h : q ≠ p) :
    memWrite m p c q = m q := by
  simp [memWrite, h]

theorem leWrite_lt (k : Nat) : ∀ (m : Mem) (p n q : Nat), q < p →
    leWrite m p n k q = m q := by
  induction k with
  | zero => intro m p n q _; rfl
  | succ k ih =>
      intro m p n q h
      show leWrite (memWrite m p (Cell.byte (n % 256))) (p + 1) (n / 256) k q = m q
      rw [ih _ _ _ _ (by omega), memWrite_other _ _ _ _ (by omega)]

theorem leWrite_ge (k : Nat) : ∀ (m : Mem) (p n q : Nat), p + k ≤ q →
    leWrite m p n k q = m q := by
  induction k with
  | zero => intro m p n q _; rfl
  | succ k ih =>
      intro m p n q h
      show leWrite (memWrite m p (Cell.byte (n % 256))) (p + 1) (n / 256) k q = m q
      rw [ih _ _ _ _ (by omega), memWrite_other _ _ _ _ (by omega)]

theorem leRead_leWrite (k : Nat) : ∀ (m : Mem) (p n : Nat),
    leRead (leWrite m p n k) p k = n % 256 ^ k := by
  induction k with
  | zero => intro m p n; simp [leRead]; omega
  | succ k ih =>
      intro m p n
      show readByte (leWrite (memWrite m p (Cell.byte (n % 256))) (p + 1) (n / 256) k) p +
          256 * leRead (leWrite (memWrite m p (Cell.byte (n % 256))) (p + 1) (n / 256) k)
            (p + 1) k = n % 256 ^ (k + 1)
      rw [ih]
      have hb : readByte (leWrite (memWrite m p (Cell.byte (n % 256))) (p + 1) (n / 256) k) p
          = n % 256 := by
        unfold readByte
        rw [leWrite_lt _ _ _ _ _ (by omega), memWrite_self]
      rw [hb]
      have h256 : 256 ^ (k + 1) = 256 * 256 ^ k := by ring
      rw [h256, Nat.mod_mul]

theorem leRead_leWrite_self (k m p n) (h : n < 256 ^ k) :
    leRead (leWrite m p n k) p k = n := by
  rw [leRead_leWrite, Nat.mod_eq_of_lt h]

theorem pow256 (k : Nat) : 256 ^ k = 2 ^ (8 * k) := by
  rw [pow_mul]
  norm_num

theorem sext_emod_toNat (b : Nat) (hb : 0 < b) (x : Int)
    (h1 : -(2 ^ (b - 1)) ≤ x) (h2 : x < 2 ^ (b - 1)) :
    sext (x % ((2 : Int) ^ b)).toNat b = x := by
  have hsucc : b - 1 + 1 = b := Nat.succ_pred_eq_of_pos hb
  have hpow : (2 : Int) ^ b = 2 ^ (b - 1) * 2 := by
    rw [← pow_succ, hsucc]
  have hpos : (0 : Int) < 2 ^ b := by positivity
  have hy0 : 0 ≤ x % ((2 : Int) ^ b) := Int.emod_nonneg x (by positivity)
  have hnatpow : ((2 ^ (b - 1) : Nat) : Int) = 2 ^ (b - 1) := by push_cast; rfl
  have hcase : x % ((2 : Int) ^ b) = x ∨ x % ((2 : Int) ^ b) = x + 2 ^ b := by
    rcases le_or_lt 0 x with hx | hx
    · left; exact Int.emod_eq_of_lt hx (by omega)
    · right
      have hshift : (x + 2 ^ b) % ((2 : Int) ^ b) = x % ((2 : Int) ^ b) := by
        rw [Int.add_emod_self]
      rw [← hshift, Int.emod_eq_of_lt (by omega) (by omega)]
  unfold sext
  rcases hcase with hc | hc
  · have hx0 : 0 ≤ x := hc ▸ hy0
    have htn : ((x % ((2 : Int) ^ b)).toNat : Int) = x := by
      rw [hc, Int.toNat_of_nonneg hx0]
    have hlt : (x % ((2 : Int) ^ b)).toNat < 2 ^ (b - 1) := by
      have h' : ((x % ((2 : Int) ^ b)).toNat : Int) < ((2 ^ (b - 1) : Nat) : Int) := by
        rw [htn, hnatpow]; exact h2
      exact_mod_cast h'
    rw [if_pos hlt, htn]
  · have hx0 : 0 ≤ x + 2 ^ b := hc ▸ hy0
    have htn : ((x % ((2 : Int) ^ b)).toNat : Int) = x + 2 ^ b := by
      rw [hc, Int.toNat_of_nonneg hx0]
    have hge : ¬ ((x % ((2 : Int) ^ b)).toNat < 2 ^ (b - 1)) := by
      intro hlt
      have h' : ((x % ((2 : Int) ^ b)).toNat : Int) < ((2 ^ (b - 1) : Nat) : Int) := by
        exact_mod_cast hlt
      rw [htn, hnatpow] at h'
      omega
    rw [if_neg hge, htn]
    ring

theorem clamp_signed_min (b : Nat) (hb : b = 8 ∨ b = 16 ∨ b = 32 ∨ b = 64) :
    wrapI64 (-(wrapI64 (2 ^ (b - 1)))) = -(2 ^ (b - 1)) := by
  rcases hb with h | h | h | h <;> subst h <;> decide

theorem clamp_signed_max (b : Nat) (hb : b = 8 ∨ b = 16 ∨ b = 32 ∨ b = 64) :
    wrapI64 (wrapI64 (2 ^ (b - 1)) - 1) = 2 ^ (b - 1) - 1 := by
  rcases hb with h | h | h | h <;> subst h <;> decide

theorem clamp_signed_eq_ok (b : Nat) (hb : b = 8 ∨ b = 16 ∨ b = 32 ∨ b = 64)
    (v : Int) (h : -(2 ^ (b - 1)) ≤ v ∧ v ≤ 2 ^ (b - 1) - 1) :
    clamp_signed v b = Except.ok v := by
  show (if v < wrapI64 (-(wrapI64 (2 ^ (b - 1)))) ∨ wrapI64 (wrapI64 (2 ^ (b - 1)) - 1) < v
    then Except.error ("signed argument out of range for " ++ toString b ++ "-bit integer")
    else Except.ok v) = Except.ok v
  rw [clamp_signed_min b hb, clamp_signed_max b hb]
  rw [if_neg (by omega)]

theorem clamp_signed_eq_err (b : Nat) (hb : b = 8 ∨ b = 16 ∨ b = 32 ∨ b = 64)
    (v : Int) (h : v < -(2 ^ (b - 1)) ∨ 2 ^ (b - 1) - 1 < v) :
    clamp_signed v b =
      Except.error ("signed argument out of range for " ++ toString b ++ "-bit integer") := by
  show (if v < wrapI64 (-(wrapI64 (2 ^ (b - 1)))) ∨ wrapI64 (wrapI64 (2 ^ (b - 1)) - 1) < v
    then Except.error ("signed argument out of range for " ++ toString b ++ "-bit integer")
    else Except.ok v) = _
  rw [clamp_signed_min b hb, clamp_signed_max b hb]
  rw [if_pos (by omega)]

theorem clampUnsignedMax_eq (b : Nat) (hb : b = 8 ∨ b = 16 ∨ b = 32 ∨ b = 64) :
    clampUnsignedMax b = 2 ^ b - 1 := by
  rcases hb with h | h | h | h <;> subst h <;> rfl

theorem clamp_unsigned_eq_ok (b : Nat) (hb : b = 8 ∨ b = 16 ∨ b = 32 ∨ b = 64)
    (u : Nat) (h : u ≤ 2 ^ b - 1) : clamp_unsigned u b = Except.ok u := by
  unfold clamp_unsigned
  rw [clampUnsignedMax_eq b hb, if_neg (by omega)]

theorem clamp_unsigned_eq_err (b : Nat) (hb : b = 8 ∨ b = 16 ∨ b = 32 ∨ b = 64)
    (u : Nat) (h : 2 ^ b - 1 < u) :
    clamp_unsigned u b =
      Except.error ("unsigned argument out of range for " ++ toString b ++ "-bit integer") := by
  unfold clamp_unsigned
  rw [clampUnsignedMax_eq b hb, if_pos (by omega)]

theorem satI64_le (i : Int) : satI64 i ≤ 2 ^ 63 - 1 := by
  unfold satI64
  split
  · omega
  · split <;> omega

theorem satI64_ge (i : Int) : -(2 ^ 63) ≤ satI64 i := by
  unfold satI64
  split
  · omega
  · split <;> omega

theorem fragWrite_get (k : Nat) : ∀ (m : Mem) (p : Nat) (x : F64) (w : Bool) (i : Nat),
    i < k → fragWrite m p x w k (p + i) = Cell.frag x w i := by
  induction k with
  | zero => intro m p x w i h; omega
  | succ k ih =>
      intro m p x w i h
      show memWrite (fragWrite m p x w k) (p + k) (Cell.frag x w k) (p + i) = Cell.frag x w i
      rcases Nat.lt_or_ge i k with hik | hik
      · rw [memWrite_other _ _ _ _ (by omega), ih _ _ _ _ _ hik]
      · have hik' : i = k := by omega
        subst hik'
        rw [memWrite_self]

theorem readFrag_fragWrite (m : Mem) (p : Nat) (x : F64) (w : Bool) (k : Nat)
    (hk : 0 < k) : readFrag (fragWrite m p x w k) p w k = x := by
  have h0 : fragWrite m p x w k p = Cell.frag x w 0 := by
    have h' := fragWrite_get k m p x w 0 hk
    simpa using h'
  unfold readFrag
  rw [h0]
  show (if w = w ∧ fragsOk (fragWrite m p x w k) p x w k then x else F64.finite 0) = x
  rw [if_pos ⟨rfl, fun i hi => fragWrite_get k m p x w i hi⟩]

theorem writeList_lt (l : List Nat) : ∀ (m : Mem) (p q : Nat), q < p →
    writeList m p l q = m q := by
  induction l with
  | nil => intro m p q _; rfl
  | cons b rest ih =>
      intro m p q h
      show writeList (memWrite m p (Cell.byte b)) (p + 1) rest q = m q
      rw [ih _ _ _ (by omega), memWrite_other _ _ _ _ (by omega)]

theorem readCString_writeList (s : List Nat) : ∀ (m : Mem) (p fuel : Nat),
    s.length < fuel → (∀ b ∈ s, b ≠ 0) →
    readCString (memWrite (writeList m p s) (p + s.length) (Cell.byte 0)) p fuel = some s := by
  induction s with
  | nil =>
      intro m p fuel hfuel _
      cases fuel with
      | zero => omega
      | succ f =>
          have hM : memWrite (writeList m p ([] : List Nat)) (p + ([] : List Nat).length)
              (Cell.byte 0) = memWrite m p (Cell.byte 0) := by
            show memWrite m (p + 0) (Cell.byte 0) = memWrite m p (Cell.byte 0)
            rw [Nat.add_zero]
          rw [hM]
          have hb : readByte (memWrite m p (Cell.byte 0)) p = 0 := by
            unfold readByte
            rw [memWrite_self]
          unfold readCString
          rw [hb]
          simp
  | cons b rest ih =>
      intro m p fuel hfuel hnz
      cases fuel with
      | zero => simp at hfuel
      | succ f =>
          have hbnz : b ≠ 0 := hnz b (by simp)
          have hM : memWrite (writeList m p (b :: rest)) (p + (b :: rest).length) (Cell.byte 0)
              = memWrite (writeList (memWrite m p (Cell.byte b)) (p + 1) rest)
                ((p + 1) + rest.length) (Cell.byte 0) := by
            show memWrite (writeList (memWrite m p (Cell.byte b)) (p + 1) rest)
                (p + (rest.length + 1)) (Cell.byte 0) = _
            have harith : p + (rest.length + 1) = (p + 1) + rest.length := by omega
            rw [harith]
          rw [hM]
          have hread : readByte (memWrite (writeList (memWrite m p (Cell.byte b)) (p + 1) rest)
              ((p + 1) + rest.length) (Cell.byte 0)) p = b := by
            unfold readByte
            rw [memWrite_other _ _ _ _ (by omega), writeList_lt _ _ _ _ (by omega),
              memWrite_self]
          unfold readCString
          rw [hread, if_neg hbnz]
          rw [ih (memWrite m p (Cell.byte b)) (p + 1) f (by simp at hfuel; omega)
            (fun c hc => hnz c (by simp [hc]))]
          rfl

/-- Claim C2, counterexample: the claim states that a float input
succeeds if and only if it is finite and equal to its truncation.  The
finite value `1 + 2^-52` is not equal to its truncation `1`, yet
`lua_value_to_i64` accepts it (the code tolerates a deviation of up to
`f64::EPSILON` from the truncation) and returns `1`. -/
theorem claim2_counterexample :
    lua_value_to_i64 (LuaValue.number (F64.finite (mkRat (2 ^ 52 + 1) (2 ^ 52)))) =
      Except.ok 1 ∧
    (F64.finite (mkRat (2 ^ 52 + 1) (2 ^ 52))).isFinite = true ∧
    ratTrunc (mkRat (2 ^ 52 + 1) (2 ^ 52)) ≠ mkRat (2 ^ 52 + 1) (2 ^ 52) := by
  refine ⟨?_, rfl, by decide⟩
  show (if f64Epsilon < ratAbs (ratTrunc (mkRat (2 ^ 52 + 1) (2 ^ 52)) -
        mkRat (2 ^ 52 + 1) (2 ^ 52))
      then (Except.error ("numeric argument must be integral") : Except String Int)
      else Except.ok (satI64 (truncInt (mkRat (2 ^ 52 + 1) (2 ^ 52))))) = Except.ok 1
  rw [Rat.sub_def']
  decide

/-- Claim C2, amended: coercion of a script value to a signed integer
returns an integer unchanged and a boolean as 1 or 0; a float succeeds
if and only if it is finite and within `f64::EPSILON` of its truncation
(not: exactly equal to it), in which case the truncation is returned
through Rust's saturating `as i64` cast; every other value kind fails
with a type-mismatch error. -/
theorem claim2_int_coercion :
    (∀ i : Int, lua_value_to_i64 (LuaValue.integer i) = Except.ok i) ∧
    lua_value_to_i64 (LuaValue.boolean true) = Except.ok 1 ∧
    lua_value_to_i64 (LuaValue.boolean false) = Except.ok 0 ∧
    (∀ q : ℚ, ratAbs (ratTrunc q - q) ≤ f64Epsilon →
      lua_value_to_i64 (LuaValue.number (F64.finite q)) =
        Except.ok (satI64 (truncInt q))) ∧
    (∀ q : ℚ, f64Epsilon < ratAbs (ratTrunc q - q) →
      lua_value_to_i64 (LuaValue.number (F64.finite q)) =
        Except.error ("numeric argument must be integral")) ∧
    lua_value_to_i64 (LuaValue.number F64.nan) =
      Except.error ("numeric argument must be finite") ∧
    lua_value_to_i64 (LuaValue.number F64.posInf) =
      Except.error ("numeric argument must be finite") ∧
    lua_value_to_i64 (LuaValue.number F64.negInf) =
      Except.error ("numeric argument must be finite") ∧
    lua_value_to_i64 LuaValue.nil = Except.error ("expected numeric value") ∧
    (∀ s, lua_value_to_i64 (LuaValue.str s) = Except.error ("expected numeric value")) ∧
    (∀ a, lua_value_to_i64 (LuaValue.lightuserdata a) =
      Except.error ("expected numeric value")) ∧
    (∀ tb, lua_value_to_i64 (LuaValue.table tb) =
      Except.error ("expected numeric value")) := by
  refine ⟨fun i => rfl, rfl, rfl, ?_, ?_, rfl, rfl, rfl, rfl, fun s => rfl,
    fun a => rfl, fun tb => rfl⟩
  · intro q h
    show (if f64Epsilon < ratAbs (ratTrunc q - q)
        then (Except.error ("numeric argument must be integral") : Except String Int)
        else Except.ok (satI64 (truncInt q))) = Except.ok (satI64 (truncInt q))
    rw [if_neg (not_lt.mpr h)]
  · intro q h
    show (if f64Epsilon < ratAbs (ratTrunc q - q)
        then (Except.error ("numeric argument must be integral") : Except String Int)
        else Except.ok (satI64 (truncInt q))) =
      Except.error ("numeric argument must be integral")
    rw [if_pos h]

/-- Claim C2, witness: the float `5` is within epsilon of its truncation
and coerces to the saturated truncation `5`. -/
theorem claim2_witness :
    ratAbs (ratTrunc 5 - 5) ≤ f64Epsilon ∧
    lua_value_to_i64 (LuaValue.number (F64.finite 5)) = Except.ok (satI64 (truncInt 5)) := by
  have h5 : ratAbs (ratTrunc 5 - 5) ≤ f64Epsilon := by
    have ht : ratTrunc 5 = 5 := by
      show ((truncInt 5 : Int) : ℚ) = 5
      norm_num [truncInt]
    rw [ht, sub_self]
    show (if (0 : ℚ) < 0 then -(0 : ℚ) else 0) ≤ f64Epsilon
    rw [if_neg (lt_irrefl 0)]
    decide
  exact ⟨h5, claim2_int_coercion.2.2.2.1 5 h5⟩

/-- Claim C3: for the widths the crate uses, signed clamping accepts
exactly the two's-complement range and unsigned clamping exactly
`[0, 2^b - 1]`, failing with a range error outside; the 64-bit unsigned
ceiling is the exact `u64::MAX` (the source special-cases it so the
shift `1u64 << bits` never overflows). -/
theorem claim3_clamp_ranges (b : Nat) (hb : b = 8 ∨ b = 16 ∨ b = 32 ∨ b = 64) :
    (∀ v : Int, -(2 ^ 63) ≤ v → v < 2 ^ 63 →
      ((clamp_signed v b = Except.ok v ↔ -(2 ^ (b - 1)) ≤ v ∧ v ≤ 2 ^ (b - 1) - 1) ∧
       ((v < -(2 ^ (b - 1)) ∨ 2 ^ (b - 1) - 1 < v) →
         clamp_signed v b = Except.error
           ("signed argument out of range for " ++ toString b ++ "-bit integer")))) ∧
    (∀ u : Nat, u < 2 ^ 64 →
      ((clamp_unsigned u b = Except.ok u ↔ u ≤ 2 ^ b - 1) ∧
       (2 ^ b - 1 < u →
         clamp_unsigned u b = Except.error
           ("unsigned argument out of range for " ++ toString b ++ "-bit integer")))) ∧
    clampUnsignedMax b = 2 ^ b - 1 := by
  refine ⟨fun v h1 h2 => ⟨⟨fun hok => ?_, fun h => clamp_signed_eq_ok b hb v h⟩,
      fun h => clamp_signed_eq_err b hb v h⟩,
    fun u hu => ⟨⟨fun hok => ?_, fun h => clamp_unsigned_eq_ok b hb u h⟩,
      fun h => clamp_unsigned_eq_err b hb u h⟩,
    clampUnsignedMax_eq b hb⟩
  · by_contra hcon
    rw [clamp_signed_eq_err b hb v (by omega)] at hok
    cases hok
  · by_contra hcon
    rw [clamp_unsigned_eq_err b hb u (by omega)] at hok
    cases hok

/-- Claim C3, witness: at 64 bits the whole `i64` range passes the
signed clamp and `u64::MAX` passes the unsigned clamp. -/
theorem claim3_witness :
    clamp_signed (-(2 ^ 63)) 64 = Except.ok (-(2 ^ 63)) ∧
    clamp_unsigned (2 ^ 64 - 1) 64 = Except.ok (2 ^ 64 - 1) ∧
    clampUnsignedMax 64 = 2 ^ 64 - 1 := by
  have h := claim3_clamp_ranges 64 (Or.inr (Or.inr (Or.inr rfl)))
  refine ⟨((h.1 (-(2 ^ 63)) (by decide) (by decide)).1).2 (by decide),
    ((h.2.1 (2 ^ 64 - 1) (by decide)).1).2 (by decide), h.2.2⟩

theorem lua_value_to_i64_bounds (v : LuaValue) (s : Int) (hv : v.wf)
    (h : lua_value_to_i64 v = Except.ok s) : -(2 ^ 63) ≤ s ∧ s ≤ 2 ^ 63 - 1 := by
  cases v with
  | integer i =>
      cases h
      have h1 := hv.1
      have h2 := hv.2
      omega
  | boolean b =>
      cases h
      cases b <;> simp
  | number x =>
      cases x with
      | finite q =>
          have h' : (if f64Epsilon < ratAbs (ratTrunc q - q)
              then (Except.error ("numeric argument must be integral") : Except String Int)
              else Except.ok (satI64 (truncInt q))) = Except.ok s := h
          split at h'
          · cases h'
          · cases h'
            exact ⟨satI64_ge _, satI64_le _⟩
      | posInf => cases h
      | negInf => cases h
      | nan => cases h
  | nil => cases h
  | str s' => cases h
  | lightuserdata a => cases h
  | table tb => cases h

theorem lua_value_to_u64_le (v : LuaValue) (u : Nat) (hv : v.wf)
    (h : lua_value_to_u64 v = Except.ok u) : u ≤ 2 ^ 63 - 1 := by
  unfold lua_value_to_u64 at h
  cases hi : lua_value_to_i64 v with
  | error e => rw [hi] at h; cases h
  | ok s =>
      rw [hi] at h
      simp only [bind, Except.bind] at h
      by_cases hneg : s < 0
      · rw [if_pos hneg] at h; cases h
      · rw [if_neg hneg] at h
        cases h
        have hb := (lua_value_to_i64_bounds v s hv hi).2
        omega

/-- Claim C10: unsigned 64-bit coercion goes through the signed path and
rejects negatives, so every value it accepts is at most `2^63 - 1`; in
particular a `uint64` scalar store can never place a value in
`[2^63, 2^64 - 1]` in memory, even though `clamp_unsigned` with 64 bits
would permit values up to `2^64 - 1`. -/
theorem claim10_u64_upper_bound :
    (∀ v : LuaValue, v.wf → ∀ u, lua_value_to_u64 v = Except.ok u → u ≤ 2 ^ 63 - 1) ∧
    (∀ (t : Target) (m : Mem) (p : Nat) (v : LuaValue) (m2 : Mem), v.wf →
      store_scalar t m p TypeCode.uint64 v = Except.ok m2 →
      leRead m2 p 8 ≤ 2 ^ 63 - 1) ∧
    clamp_unsigned (2 ^ 64 - 1) 64 = Except.ok (2 ^ 64 - 1) := by
  refine ⟨fun v hv u h => lua_value_to_u64_le v u hv h, ?_, by decide⟩
  intro t m p v m2 hv hst
  unfold store_scalar at hst
  simp only [bind, Except.bind] at hst
  cases hu : lua_value_to_u64 v with
  | error e => rw [hu] at hst; cases hst
  | ok x =>
      rw [hu] at hst
      cases hst
      have hx := lua_value_to_u64_le v x hv hu
      rw [leRead_leWrite, pow256]
      have hxlt : x < 2 ^ (8 * 8) := by norm_num; omega
      rw [Nat.mod_eq_of_lt hxlt]
      exact hx

/-- Claim C10, witness: the in-range integer `2^62` coerces to itself,
within the bound. -/
theorem claim10_witness :
    LuaValue.wf (LuaValue.integer (2 ^ 62)) ∧
    lua_value_to_u64 (LuaValue.integer (2 ^ 62)) = Except.ok (2 ^ 62) ∧
    (2 ^ 62 : Nat) ≤ 2 ^ 63 - 1 := by
  refine ⟨by decide, by decide, ?_⟩
  exact claim10_u64_upper_bound.1 (LuaValue.integer (2 ^ 62)) (by decide) (2 ^ 62) (by decide)

/-- Claim C1, counterexample: the claim states that `load_scalar` with
the `pointer` code returns nil when the pointed-to slot holds the null
pointer.  Loading a pointer from all-zero memory actually returns a
light-userdata wrapping the null pointer, not nil: the `pointer` branch
of `load_scalar` has no null check. -/
theorem claim1_counterexample :
    load_scalar tgt64 zeroMem 0 TypeCode.pointer =
      Except.ok (LuaValue.lightuserdata 0) ∧
    load_scalar tgt64 zeroMem 0 TypeCode.pointer ≠ Except.ok LuaValue.nil := by
  decide

/-- Claim C1, amended: `load_scalar` with the `pointer` code returns the
stored pointer as a light-userdata in every case; a stored null pointer
comes back as a light-userdata wrapping address zero rather than nil
(only the call engine's result conversion and the callback argument
reader map null to nil). -/
theorem claim1_pointer_load (t : Target) (m : Mem) (p a : Nat)
    (h : a < 2 ^ (8 * pointerSize t)) :
    ∃ m2, store_scalar t m p TypeCode.pointer (LuaValue.lightuserdata a) = Except.ok m2 ∧
      load_scalar t m2 p TypeCode.pointer = Except.ok (LuaValue.lightuserdata a) := by
  refine ⟨leWrite m p a (pointerSize t), rfl, ?_⟩
  show Except.ok
      (LuaValue.lightuserdata (leRead (leWrite m p a (pointerSize t)) p (pointerSize t))) = _
  rw [leRead_leWrite_self _ _ _ _ (by rw [pow256]; exact h)]

/-- Claim C1, witness: storing and loading the null pointer yields the
null light-userdata. -/
theorem claim1_witness :
    (0 : Nat) < 2 ^ (8 * pointerSize tgt64) ∧
    (∃ m2, store_scalar tgt64 zeroMem 0 TypeCode.pointer (LuaValue.lightuserdata 0) =
        Except.ok m2 ∧
      load_scalar tgt64 m2 0 TypeCode.pointer = Except.ok (LuaValue.lightuserdata 0)) :=
  ⟨by decide, claim1_pointer_load tgt64 zeroMem 0 0 (by decide)⟩

/-- Claim C6, counterexample: the claim states the round-trip returns
the original bytes for every byte string, but a string with an interior
NUL is truncated at that NUL by the terminator-seeking read. -/
theorem claim6_counterexample :
    (do
      let m1 ← write_bytes zeroMem 4 [65, 0, 66] (some true)
      read_string m1 4 none 10 : Except String (List Nat)) = Except.ok [65] ∧
    ([65] : List Nat) ≠ [65, 0, 66] := by
  decide

/-- Claim C6, amended: for every NUL-free byte string, `write_bytes`
with `append_null` followed by the NUL-terminated `read_string` returns
exactly the original bytes (the scan fuel only needs to cover the
written bytes). -/
theorem claim6_string_roundtrip (m : Mem) (dest : Nat) (s : List Nat) (fuel : Nat)
    (hd : dest ≠ 0) (hnul : (0 : Nat) ∉ s) (hfuel : s.length < fuel) :
    (do
      let m1 ← write_bytes m dest s (some true)
      read_string m1 dest none fuel : Except String (List Nat)) = Except.ok s := by
  have hw : write_bytes m dest s (some true) =
      Except.ok (memWrite (writeList m dest s) (dest + s.length) (Cell.byte 0)) := by
    unfold write_bytes
    rw [if_neg hd]
    rfl
  show (write_bytes m dest s (some true)).bind (fun m1 => read_string m1 dest none fuel) =
    Except.ok s
  rw [hw]
  show read_string (memWrite (writeList m dest s) (dest + s.length) (Cell.byte 0))
    dest none fuel = Except.ok s
  unfold read_string
  rw [if_neg hd]
  rw [readCString_writeList s m dest fuel hfuel (fun b hb hbz => hnul (hbz ▸ hb))]

/-- Claim C6, witness: a concrete two-byte round-trip. -/
theorem claim6_witness :
    (4 : Nat) ≠ 0 ∧ (0 : Nat) ∉ ([65, 66] : List Nat) ∧ ([65, 66] : List Nat).length < 3 ∧
    (do
      let m1 ← write_bytes zeroMem 4 [65, 66] (some true)
      read_string m1 4 none 3 : Except String (List Nat)) = Except.ok [65, 66] :=
  ⟨by decide, by decide, by decide,
    claim6_string_roundtrip zeroMem 4 [65, 66] 3 (by decide) (by decide) (by decide)⟩

theorem signed_cell_roundtrip (m : Mem) (p : Nat) (i : Int) (b k : Nat)
    (hbk : b = 8 * k) (hk : 0 < k) (h1 : -(2 ^ (b - 1)) ≤ i) (h2 : i < 2 ^ (b - 1)) :
    sext (leRead (leWrite m p (i % ((2 : Int) ^ b)).toNat k) p k) b = i := by
  have hpow : (256 : Nat) ^ k = 2 ^ b := by rw [pow256, hbk]
  have h0 : 0 ≤ i % ((2 : Int) ^ b) := Int.emod_nonneg i (by positivity)
  have hlt : i % ((2 : Int) ^ b) < (2 : Int) ^ b := Int.emod_lt_of_pos i (by positivity)
  have hcast : ((2 ^ b : Nat) : Int) = (2 : Int) ^ b := by push_cast; rfl
  have hbound : (i % ((2 : Int) ^ b)).toNat < 256 ^ k := by
    rw [hpow]
    have h' : ((i % ((2 : Int) ^ b)).toNat : Int) < ((2 ^ b : Nat) : Int) := by
      rw [Int.toNat_of_nonneg h0, hcast]
      exact hlt
    exact_mod_cast h'
  rw [leRead_leWrite_self _ _ _ _ hbound]
  exact sext_emod_toNat b (by omega) i h1 h2

theorem unsigned_cell_roundtrip (m : Mem) (p : Nat) (u : Nat) (k : Nat)
    (h : u < 2 ^ (8 * k)) : leRead (leWrite m p u k) p k = u := by
  apply leRead_leWrite_self
  rw [pow256]
  exact h

/-- Claim C7: for every non-void type code, storing a representable
script value and loading it back with the same code returns the value
unchanged.  Representable means: integer values within the code's range
for the integer codes (capped at `2^63 - 1` for the 64-bit unsigned
codes, since the coercion saturates there and larger script integers do
not exist), numbers fixed by `f32` rounding for `float32`, all numbers
for `float64`, and pointer-width light-userdata for `pointer`. -/
theorem claim7_store_load_roundtrip (t : Target) (c : TypeCode) (v : LuaValue)
    (m : Mem) (p : Nat) (hc : c ≠ TypeCode.void) (hv : representable t c v = true) :
    ∃ m2, store_scalar t m p c v = Except.ok m2 ∧ load_scalar t m2 p c = Except.ok v := by
  cases c with
  | void => exact absurd rfl hc
  | int8 =>
      cases v
      case integer i =>
        simp only [representable, decide_eq_true_eq] at hv
        have hcl := clamp_signed_eq_ok 8 (Or.inl rfl) i ⟨hv.1, by omega⟩
        have hrt := signed_cell_roundtrip m p i 8 1 rfl (by norm_num) hv.1 hv.2
        refine ⟨leWrite m p (i % ((2 : Int) ^ 8)).toNat 1, ?_, ?_⟩
        · show (clamp_signed i 8).bind
            (fun x => Except.ok (leWrite m p (x % (2 ^ 8 : Int)).toNat 1)) = _
          rw [hcl]
          rfl
        · show Except.ok (LuaValue.integer
            (sext (leRead (leWrite m p (i % ((2 : Int) ^ 8)).toNat 1) p 1) 8)) = _
          rw [hrt]
      all_goals simp [representable] at hv
  | int16 =>
      cases v
      case integer i =>
        simp only [representable, decide_eq_true_eq] at hv
        have hcl := clamp_signed_eq_ok 16 (Or.inr (Or.inl rfl)) i ⟨hv.1, by omega⟩
        have hrt := signed_cell_roundtrip m p i 16 2 rfl (by norm_num) hv.1 hv.2
        refine ⟨leWrite m p (i % ((2 : Int) ^ 16)).toNat 2, ?_, ?_⟩
        · show (clamp_signed i 16).bind
            (fun x => Except.ok (leWrite m p (x % (2 ^ 16 : Int)).toNat 2)) = _
          rw [hcl]
          rfl
        · show Except.ok (LuaValue.integer
            (sext (leRead (leWrite m p (i % ((2 : Int) ^ 16)).toNat 2) p 2) 16)) = _
          rw [hrt]
      all_goals simp [representable] at hv
  | int32 =>
      cases v
      case integer i =>
        simp only [representable, decide_eq_true_eq] at hv
        have hcl := clamp_signed_eq_ok 32 (Or.inr (Or.inr (Or.inl rfl))) i ⟨hv.1, by omega⟩
        have hrt := signed_cell_roundtrip m p i 32 4 rfl (by norm_num) hv.1 hv.2
        refine ⟨leWrite m p (i % ((2 : Int) ^ 32)).toNat 4, ?_, ?_⟩
        · show (clamp_signed i 32).bind
            (fun x => Except.ok (leWrite m p (x % (2 ^ 32 : Int)).toNat 4)) = _
          rw [hcl]
          rfl
        · show Except.ok (LuaValue.integer
            (sext (leRead (leWrite m p (i % ((2 : Int) ^ 32)).toNat 4) p 4) 32)) = _
          rw [hrt]
      all_goals simp [representable] at hv
  | int64 =>
      cases v
      case integer i =>
        simp only [representable, decide_eq_true_eq] at hv
        have hrt := signed_cell_roundtrip m p i 64 8 rfl (by norm_num) hv.1 hv.2
        refine ⟨leWrite m p (i % ((2 : Int) ^ 64)).toNat 8, rfl, ?_⟩
        show Except.ok (LuaValue.integer
          (sext (leRead (leWrite m p (i % ((2 : Int) ^ 64)).toNat 8) p 8) 64)) = _
        rw [hrt]
      all_goals simp [representable] at hv
  | uint8 =>
      cases v
      case integer i =>
        simp only [representable, decide_eq_true_eq] at hv
        have hu : lua_value_to_u64 (LuaValue.integer i) = Except.ok i.toNat := by
          show (if i < 0 then (Except.error
              ("negative value provided for unsigned argument") : Except String Nat)
            else Except.ok i.toNat) = _
          rw [if_neg (not_lt.mpr hv.1)]
        have hcl := clamp_unsigned_eq_ok 8 (Or.inl rfl) i.toNat (by omega)
        have hrt := unsigned_cell_roundtrip m p i.toNat 1 (by norm_num; omega)
        refine ⟨leWrite m p i.toNat 1, ?_, ?_⟩
        · show (lua_value_to_u64 (LuaValue.integer i)).bind
            (fun a => (clamp_unsigned a 8).bind
              (fun x => Except.ok (leWrite m p x 1))) = _
          rw [hu]
          show (clamp_unsigned i.toNat 8).bind
            (fun x => Except.ok (leWrite m p x 1)) = _
          rw [hcl]
          rfl
        · show Except.ok (LuaValue.integer (leRead (leWrite m p i.toNat 1) p 1)) = _
          rw [hrt, Int.toNat_of_nonneg hv.1]
      all_goals simp [representable] at hv
  | uint16 =>
      cases v
      case integer i =>
        simp only [representable, decide_eq_true_eq] at hv
        have hu : lua_value_to_u64 (LuaValue.integer i) = Except.ok i.toNat := by
          show (if i < 0 then (Except.error
              ("negative value provided for unsigned argument") : Except String Nat)
            else Except.ok i.toNat) = _
          rw [if_neg (not_lt.mpr hv.1)]
        have hcl := clamp_unsigned_eq_ok 16 (Or.inr (Or.inl rfl)) i.toNat (by omega)
        have hrt := unsigned_cell_roundtrip m p i.toNat 2 (by norm_num; omega)
        refine ⟨leWrite m p i.toNat 2, ?_, ?_⟩
        · show (lua_value_to_u64 (LuaValue.integer i)).bind
            (fun a => (clamp_unsigned a 16).bind
              (fun x => Except.ok (leWrite m p x 2))) = _
          rw [hu]
          show (clamp_unsigned i.toNat 16).bind
            (fun x => Except.ok (leWrite m p x 2)) = _
          rw [hcl]
          rfl
        · show Except.ok (LuaValue.integer (leRead (leWrite m p i.toNat 2) p 2)) = _
          rw [hrt, Int.toNat_of_nonneg hv.1]
      all_goals simp [representable] at hv
  | uint32 =>
      cases v
      case integer i =>
        simp only [representable, decide_eq_true_eq] at hv
        have hu : lua_value_to_u64 (LuaValue.integer i) = Except.ok i.toNat := by
          show (if i < 0 then (Except.error
              ("negative value provided for unsigned argument") : Except String Nat)
            else Except.ok i.toNat) = _
          rw [if_neg (not_lt.mpr hv.1)]
        have hcl := clamp_unsigned_eq_ok 32 (Or.inr (Or.inr (Or.inl rfl))) i.toNat (by omega)
        have hrt := unsigned_cell_roundtrip m p i.toNat 4 (by norm_num; omega)
        refine ⟨leWrite m p i.toNat 4, ?_, ?_⟩
        · show (lua_value_to_u64 (LuaValue.integer i)).bind
            (fun a => (clamp_unsigned a 32).bind
              (fun x => Except.ok (leWrite m p x 4))) = _
          rw [hu]
          show (clamp_unsigned i.toNat 32).bind
            (fun x => Except.ok (leWrite m p x 4)) = _
          rw [hcl]
          rfl
        · show Except.ok (LuaValue.integer (leRead (leWrite m p i.toNat 4) p 4)) = _
          rw [hrt, Int.toNat_of_nonneg hv.1]
      all_goals simp [representable] at hv
  | uint64 =>
      cases v
      case integer i =>
        simp only [representable, decide_eq_true_eq] at hv
        have hu : lua_value_to_u64 (LuaValue.integer i) = Except.ok i.toNat := by
          show (if i < 0 then (Except.error
              ("negative value provided for unsigned argument") : Except String Nat)
            else Except.ok i.toNat) = _
          rw [if_neg (not_lt.mpr hv.1)]
        have hrt := unsigned_cell_roundtrip m p i.toNat 8 (by norm_num; omega)
        refine ⟨leWrite m p i.toNat 8, ?_, ?_⟩
        · show (lua_value_to_u64 (LuaValue.integer i)).bind
            (fun x => Except.ok (leWrite m p x 8)) = _
          rw [hu]
          rfl
        · unfold load_scalar
          rw [hrt, if_pos (by omega), Int.toNat_of_nonneg hv.1]
      all_goals simp [representable] at hv
  | intptr =>
      obtain ⟨p64, win, unx, arch⟩ := t
      cases v
      case integer i =>
        cases p64 with
        | true =>
            simp only [representable, eq_self_iff_true, if_true, Bool.false_eq_true,
              if_false, decide_eq_true_eq] at hv
            have hcl := clamp_signed_eq_ok 64 (Or.inr (Or.inr (Or.inr rfl))) i
              ⟨hv.1, by omega⟩
            have hrt := signed_cell_roundtrip m p i 64 8 rfl (by norm_num) hv.1 hv.2
            refine ⟨leWrite m p (i % ((2 : Int) ^ 64)).toNat 8, ?_, ?_⟩
            · show (clamp_signed i 64).bind
                (fun x => Except.ok (leWrite m p (x % (2 ^ 64 : Int)).toNat 8)) = _
              rw [hcl]
              rfl
            · show Except.ok (LuaValue.integer
                (sext (leRead (leWrite m p (i % ((2 : Int) ^ 64)).toNat 8) p 8) 64)) = _
              rw [hrt]
        | false =>
            simp only [representable, eq_self_iff_true, if_true, Bool.false_eq_true,
              if_false, decide_eq_true_eq] at hv
            have hcl := clamp_signed_eq_ok 32 (Or.inr (Or.inr (Or.inl rfl))) i
              ⟨hv.1, by omega⟩
            have hrt := signed_cell_roundtrip m p i 32 4 rfl (by norm_num) hv.1 hv.2
            refine ⟨leWrite m p (i % ((2 : Int) ^ 32)).toNat 4, ?_, ?_⟩
            · show (clamp_signed i 32).bind
                (fun x => Except.ok (leWrite m p (x % (2 ^ 32 : Int)).toNat 4)) = _
              rw [hcl]
              rfl
            · show Except.ok (LuaValue.integer
                (sext (leRead (leWrite m p (i % ((2 : Int) ^ 32)).toNat 4) p 4) 32)) = _
              rw [hrt]
      all_goals simp [representable] at hv
  | uintptr =>
      obtain ⟨p64, win, unx, arch⟩ := t
      cases v
      case integer i =>
        cases p64 with
        | true =>
            simp only [representable, eq_self_iff_true, if_true, Bool.false_eq_true,
              if_false, decide_eq_true_eq] at hv
            have hu : lua_value_to_u64 (LuaValue.integer i) = Except.ok i.toNat := by
              show (if i < 0 then (Except.error
                  ("negative value provided for unsigned argument") : Except String Nat)
                else Except.ok i.toNat) = _
              rw [if_neg (not_lt.mpr hv.1)]
            have hcl := clamp_unsigned_eq_ok 64 (Or.inr (Or.inr (Or.inr rfl))) i.toNat
              (by omega)
            have hrt := unsigned_cell_roundtrip m p i.toNat 8 (by norm_num; omega)
            refine ⟨leWrite m p i.toNat 8, ?_, ?_⟩
            · show (lua_value_to_u64 (LuaValue.integer i)).bind
                (fun a => (clamp_unsigned a 64).bind
                  (fun x => Except.ok (leWrite m p x 8))) = _
              rw [hu]
              show (clamp_unsigned i.toNat 64).bind
                (fun x => Except.ok (leWrite m p x 8)) = _
              rw [hcl]
              rfl
            · unfold load_scalar
              show (if (true : Bool) = true
                then if leRead (leWrite m p i.toNat 8) p 8 ≤ 2 ^ 63 - 1
                  then Except.ok (LuaValue.integer (leRead (leWrite m p i.toNat 8) p 8))
                  else Except.ok (LuaValue.number
                    (intAsF64 (leRead (leWrite m p i.toNat 8) p 8)))
                else Except.ok (LuaValue.integer (leRead (leWrite m p i.toNat 8) p 4))) = _
              rw [if_pos rfl, hrt, if_pos (by omega), Int.toNat_of_nonneg hv.1]
        | false =>
            simp only [representable, eq_self_iff_true, if_true, Bool.false_eq_true,
              if_false, decide_eq_true_eq] at hv
            have hu : lua_value_to_u64 (LuaValue.integer i) = Except.ok i.toNat := by
              show (if i < 0 then (Except.error
                  ("negative value provided for unsigned argument") : Except String Nat)
                else Except.ok i.toNat) = _
              rw [if_neg (not_lt.mpr hv.1)]
            have hcl := clamp_unsigned_eq_ok 32 (Or.inr (Or.inr (Or.inl rfl))) i.toNat
              (by omega)
            have hrt := unsigned_cell_roundtrip m p i.toNat 4 (by norm_num; omega)
            refine ⟨leWrite m p (i.toNat % 2 ^ 32) 4, ?_, ?_⟩
            · show (lua_value_to_u64 (LuaValue.integer i)).bind
                (fun a => (clamp_unsigned a 32).bind
                  (fun x => Except.ok (leWrite m p (x % 2 ^ 32) 4))) = _
              rw [hu]
              show (clamp_unsigned i.toNat 32).bind
                (fun x => Except.ok (leWrite m p (x % 2 ^ 32) 4)) = _
              rw [hcl]
              rfl
            · show Except.ok (LuaValue.integer
                (leRead (leWrite m p (i.toNat % 2 ^ 32) 4) p 4)) = _
              rw [Nat.mod_eq_of_lt (by omega), hrt, Int.toNat_of_nonneg hv.1]
      all_goals simp [representable] at hv
  | float32 =>
      cases v
      case number x =>
        simp only [representable, decide_eq_true_eq] at hv
        refine ⟨fragWrite m p (asF32 x) false 4, rfl, ?_⟩
        show Except.ok (LuaValue.number
          (readFrag (fragWrite m p (asF32 x) false 4) p false 4)) = _
        rw [readFrag_fragWrite _ _ _ _ 4 (by norm_num), hv]
      all_goals simp [representable] at hv
  | float64 =>
      cases v
      case number x =>
        refine ⟨fragWrite m p x true 8, rfl, ?_⟩
        show Except.ok (LuaValue.number (readFrag (fragWrite m p x true 8) p true 8)) = _
        rw [readFrag_fragWrite _ _ _ _ 8 (by norm_num)]
      all_goals simp [representable] at hv
  | pointer =>
      cases v
      case lightuserdata a =>
        simp only [representable, decide_eq_true_eq] at hv
        refine ⟨leWrite m p a (pointerSize t), rfl, ?_⟩
        show Except.ok (LuaValue.lightuserdata
          (leRead (leWrite m p a (pointerSize t)) p (pointerSize t))) = _
        rw [leRead_leWrite_self _ _ _ _ (by rw [pow256]; exact hv)]
      all_goals simp [representable] at hv

/-- Claim C7, witness: a concrete int8 round-trip of the value -5. -/
theorem claim7_witness :
    TypeCode.int8 ≠ TypeCode.void ∧
    representable tgt64 TypeCode.int8 (LuaValue.integer (-5)) = true ∧
    (∃ m2, store_scalar tgt64 zeroMem 0 TypeCode.int8 (LuaValue.integer (-5)) =
        Except.ok m2 ∧
      load_scalar tgt64 m2 0 TypeCode.int8 = Except.ok (LuaValue.integer (-5))) :=
  ⟨by decide, by decide,
    claim7_store_load_roundtrip tgt64 TypeCode.int8 (LuaValue.integer (-5)) zeroMem 0
      (by decide) (by decide)⟩


/-- Claim C9: a variadic cdata argument whose type spelling is not a
recognised type code but whose pointer field is present is passed as
the raw pointer: the conversion neither fails nor reads memory. -/
theorem claim9_unknown_ctype_raw_pointer (t : Target) (m : Mem)
    (refs : List (List Nat)) (a : Nat) (s : String)
    (h : (TypeCode.from_code t (normalize_code s)).toOption = none) :
    convert_variadic_argument t m
      (LuaValue.table ⟨true, PtrField.lud a, CTypeField.strT s⟩) refs =
      Except.ok ((ArgValue.ptrv (Ptr.addr a), TypeCode.pointer), refs) := by
  have hext : extract_cdata_info t ⟨true, PtrField.lud a, CTypeField.strT s⟩ =
      Except.ok (some ⟨some a, none⟩) := by
    unfold extract_cdata_info
    rw [if_pos rfl]
    show (Except.ok ((TypeCode.from_code t (normalize_code s)).toOption)).bind
        (fun tc => Except.ok (some (⟨some a, tc⟩ : CDataInfo))) = _
    rw [h]
    rfl
  simp only [convert_variadic_argument, hext, bind, Except.bind]

/-- Claim C9, witness: a cdata with an unrecognised spelling and pointer
address 7 converts to the raw pointer 7 on arbitrary memory. -/
theorem claim9_witness :
    (TypeCode.from_code tgt64 (normalize_code "mystery")).toOption = none ∧
    convert_variadic_argument tgt64 zeroMem
      (LuaValue.table ⟨true, PtrField.lud 7, CTypeField.strT "mystery"⟩) [] =
      Except.ok ((ArgValue.ptrv (Ptr.addr 7), TypeCode.pointer), []) :=
  ⟨by decide, claim9_unknown_ctype_raw_pointer tgt64 zeroMem [] 7 "mystery" (by decide)⟩


/-- Claim C4, counterexample: the claim states that a cdata table
carrying a type descriptor has its pointed-to value loaded and
promoted.  For the `pointer` descriptor the code instead passes the
cdata's own `__ptr` field raw: with `__ptr = 16` and the eight bytes at
address 16 holding 999, the argument becomes pointer 16, not the
pointed-to value 999. -/
theorem claim4_counterexample :
    convert_variadic_argument tgt64 (leWrite zeroMem 16 999 8)
      (LuaValue.table ⟨true, PtrField.lud 16, CTypeField.strT "pointer"⟩) [] =
      Except.ok ((ArgValue.ptrv (Ptr.addr 16), TypeCode.pointer), []) ∧
    leRead (leWrite zeroMem 16 999 8) 16 8 = 999 ∧
    Ptr.addr 16 ≠ Ptr.addr 999 := by
  decide

/-- Claim C4, amended: variadic inference follows the promotion matrix
with two refinements over the claim.  A cdata whose descriptor names
the `pointer` code passes its own `__ptr` raw instead of loading the
pointed-to pointer; and a non-finite number fails rather than passing
as `f64`.  All other rows are as claimed: nil becomes the null pointer,
light-userdata a pointer, a NUL-free string an owned NUL-terminated
copy passed as pointer, a boolean a 32-bit int, an integer a 64-bit
signed value on 64-bit targets and a range-checked 32-bit value on
32-bit targets, a finite number an `f64`, a cdata with a non-pointer
descriptor has the pointed-to value loaded and promoted (sub-32-bit
integers widen to 32-bit int, `f32` widens to `f64`), a cdata with only
a pointer passes that pointer, and everything else fails. -/
theorem claim4_variadic_promotion (t : Target) (m : Mem) (refs : List (List Nat)) :
    convert_variadic_argument t m LuaValue.nil refs =
      Except.ok ((ArgValue.ptrv (Ptr.addr 0), TypeCode.pointer), refs) ∧
    (∀ a, convert_variadic_argument t m (LuaValue.lightuserdata a) refs =
      Except.ok ((ArgValue.ptrv (Ptr.addr a), TypeCode.pointer), refs)) ∧
    (∀ s, (0 : Nat) ∉ s → convert_variadic_argument t m (LuaValue.str s) refs =
      Except.ok ((ArgValue.ptrv (Ptr.strRef refs.length), TypeCode.pointer),
        refs ++ [s ++ [0]])) ∧
    (∀ s, (0 : Nat) ∈ s → convert_variadic_argument t m (LuaValue.str s) refs =
      Except.error ("string argument contains NUL byte")) ∧
    (∀ b, convert_variadic_argument t m (LuaValue.boolean b) refs =
      Except.ok ((ArgValue.i32v (if b then 1 else 0), TypeCode.int32), refs)) ∧
    (t.ptr64 = true → ∀ i, convert_variadic_argument t m (LuaValue.integer i) refs =
      Except.ok ((ArgValue.i64v i, TypeCode.int64), refs)) ∧
    (t.ptr64 = false → ∀ i, -(2 ^ 31) ≤ i → i ≤ 2 ^ 31 - 1 →
      convert_variadic_argument t m (LuaValue.integer i) refs =
        Except.ok ((ArgValue.i32v i, TypeCode.int32), refs)) ∧
    (t.ptr64 = false → ∀ i, (i < -(2 ^ 31) ∨ 2 ^ 31 - 1 < i) →
      convert_variadic_argument t m (LuaValue.integer i) refs =
        Except.error ("signed argument out of range for " ++ toString (32 : Nat) ++
          "-bit integer")) ∧
    (∀ q, convert_variadic_argument t m (LuaValue.number (F64.finite q)) refs =
      Except.ok ((ArgValue.f64v (F64.finite q), TypeCode.float64), refs)) ∧
    (∀ x : F64, x.isFinite = false →
      convert_variadic_argument t m (LuaValue.number x) refs =
        Except.error ("numeric argument must be finite")) ∧
    (∀ tb info, extract_cdata_info t tb = Except.ok (some info) →
      info.typeCode = some TypeCode.pointer →
      convert_variadic_argument t m (LuaValue.table tb) refs =
        Except.ok ((ArgValue.ptrv (Ptr.addr (info.ptr.getD 0)), TypeCode.pointer), refs)) ∧
    (∀ tb info tc, extract_cdata_info t tb = Except.ok (some info) →
      info.typeCode = some tc → tc ≠ TypeCode.pointer →
      convert_variadic_argument t m (LuaValue.table tb) refs =
        (convert_cdata_variadic_argument t m info tc).map (fun r => (r, refs))) ∧
    (∀ info : CDataInfo, ∀ p0, info.ptr = some p0 →
      convert_cdata_variadic_argument t m info TypeCode.int8 =
        Except.ok (ArgValue.i32v (sext (leRead m p0 1) 8), TypeCode.int32) ∧
      convert_cdata_variadic_argument t m info TypeCode.uint8 =
        Except.ok (ArgValue.i32v (leRead m p0 1), TypeCode.int32) ∧
      convert_cdata_variadic_argument t m info TypeCode.int16 =
        Except.ok (ArgValue.i32v (sext (leRead m p0 2) 16), TypeCode.int32) ∧
      convert_cdata_variadic_argument t m info TypeCode.uint16 =
        Except.ok (ArgValue.i32v (leRead m p0 2), TypeCode.int32) ∧
      convert_cdata_variadic_argument t m info TypeCode.int64 =
        Except.ok (ArgValue.i64v (sext (leRead m p0 8) 64), TypeCode.int64) ∧
      convert_cdata_variadic_argument t m info TypeCode.float32 =
        Except.ok (ArgValue.f64v (readFrag m p0 false 4), TypeCode.float64) ∧
      convert_cdata_variadic_argument t m info TypeCode.float64 =
        Except.ok (ArgValue.f64v (readFrag m p0 true 8), TypeCode.float64)) ∧
    (∀ tb info p0, extract_cdata_info t tb = Except.ok (some info) →
      info.typeCode = none → info.ptr = some p0 →
      convert_variadic_argument t m (LuaValue.table tb) refs =
        Except.ok ((ArgValue.ptrv (Ptr.addr p0), TypeCode.pointer), refs)) ∧
    (∀ tb info, extract_cdata_info t tb = Except.ok (some info) →
      info.typeCode = none → info.ptr = none →
      convert_variadic_argument t m (LuaValue.table tb) refs =
        Except.error ("cannot infer C type for variadic cdata argument")) ∧
    (∀ tb, extract_cdata_info t tb = Except.ok none →
      convert_variadic_argument t m (LuaValue.table tb) refs =
        Except.error ("cannot infer C type for variadic table argument")) := by
  refine ⟨rfl, fun a => rfl, ?_, ?_, fun b => rfl, ?_, ?_, ?_, fun q => rfl, ?_, ?_, ?_,
    ?_, ?_, ?_, ?_⟩
  · intro s hs
    simp only [convert_variadic_argument]
    rw [if_neg hs]
  · intro s hs
    simp only [convert_variadic_argument]
    rw [if_pos hs]
  · intro hp i
    simp only [convert_variadic_argument]
    rw [hp, if_pos rfl]
  · intro hp i h1 h2
    simp only [convert_variadic_argument]
    rw [hp, if_neg Bool.false_ne_true]
    rw [clamp_signed_eq_ok 32 (Or.inr (Or.inr (Or.inl rfl))) i ⟨by norm_num; omega,
      by norm_num; omega⟩]
    rfl
  · intro hp i hout
    simp only [convert_variadic_argument]
    rw [hp, if_neg Bool.false_ne_true]
    rw [clamp_signed_eq_err 32 (Or.inr (Or.inr (Or.inl rfl))) i (by norm_num; omega)]
    rfl
  · intro x hx
    cases x with
    | finite q => simp [F64.isFinite] at hx
    | posInf => rfl
    | negInf => rfl
    | nan => rfl
  · intro tb info hext htc
    obtain ⟨optr, otc⟩ := info
    have h' : otc = some TypeCode.pointer := htc
    subst h'
    simp only [convert_variadic_argument, hext, bind, Except.bind, eq_self_iff_true,
      if_true]
  · intro tb info tc hext htc hne
    obtain ⟨optr, otc⟩ := info
    have h' : otc = some tc := htc
    subst h'
    simp only [convert_variadic_argument, hext, bind, Except.bind]
    rw [if_neg hne]
    cases hres : convert_cdata_variadic_argument t m ⟨optr, some tc⟩ tc with
    | error e => rfl
    | ok r => rfl
  · intro info p0 hp
    obtain ⟨optr, otc⟩ := info
    have h' : optr = some p0 := hp
    subst h'
    exact ⟨rfl, rfl, rfl, rfl, rfl, rfl, rfl⟩
  · intro tb info p0 hext htc hp
    obtain ⟨optr, otc⟩ := info
    have h1 : otc = none := htc
    have h2 : optr = some p0 := hp
    subst h1
    subst h2
    simp only [convert_variadic_argument, hext, bind, Except.bind]
  · intro tb info hext htc hp
    obtain ⟨optr, otc⟩ := info
    have h1 : otc = none := htc
    have h2 : optr = none := hp
    subst h1
    subst h2
    simp only [convert_variadic_argument, hext, bind, Except.bind]
  · intro tb hext
    simp only [convert_variadic_argument, hext, bind, Except.bind]

/-- Claim C4, witness: concrete instances of the string row, the 64-bit
integer row and the cdata-int8 promotion row. -/
theorem claim4_witness :
    ((0 : Nat) ∉ ([104, 105] : List Nat)) ∧
    convert_variadic_argument tgt64 zeroMem (LuaValue.str [104, 105]) [] =
      Except.ok ((ArgValue.ptrv (Ptr.strRef ([] : List (List Nat)).length),
        TypeCode.pointer), [] ++ [[104, 105] ++ [0]]) ∧
    convert_variadic_argument tgt64 zeroMem (LuaValue.integer 42) [] =
      Except.ok ((ArgValue.i64v 42, TypeCode.int64), []) ∧
    convert_cdata_variadic_argument tgt64 (leWrite zeroMem 16 251 1)
      ⟨some 16, some TypeCode.int8⟩ TypeCode.int8 =
      Except.ok (ArgValue.i32v (sext (leRead (leWrite zeroMem 16 251 1) 16 1) 8),
        TypeCode.int32) :=
  ⟨by decide,
    (claim4_variadic_promotion tgt64 zeroMem []).2.2.1 [104, 105] (by decide),
    (claim4_variadic_promotion tgt64 zeroMem []).2.2.2.2.2.1 rfl 42,
    ((claim4_variadic_promotion tgt64 (leWrite zeroMem 16 251 1) []).2.2.2.2.2.2.2.2.2.2.2.2.1
      ⟨some 16, some TypeCode.int8⟩ 16 rfl).1⟩


/-- Claim C8: every successfully constructed signature satisfies
`fixed_count ≤ args.length`, with equality when not variadic; an absent
`fixedCount` defaults to the argument count and a present one is taken
verbatim, so construction fails whenever the invariants would be
violated. -/
theorem claim8_signature_invariants (t : Target) (tbl : SigTable) (sig : Signature)
    (h : Signature.from_table t tbl = Except.ok sig) :
    sig.fixed_count ≤ sig.args.length ∧
    (sig.variadic = false → sig.fixed_count = sig.args.length) ∧
    (tbl.fixedCount = none → sig.fixed_count = sig.args.length) ∧
    (∀ n, tbl.fixedCount = some n → sig.fixed_count = n) ∧
    sig.variadic = tbl.variadic.getD false := by
  unfold Signature.from_table at h
  cases habi : AbiChoice.from_option t tbl.abi with
  | error e => rw [habi] at h; cases h
  | ok abi =>
      rw [habi] at h
      simp only [bind, Except.bind] at h
      cases hres : CType.from_lua t tbl.result with
      | error e => rw [hres] at h; cases h
      | ok result =>
          rw [hres] at h
          simp only at h
          cases hargs : tbl.args.mapM (CType.from_lua t) with
          | error e => rw [hargs] at h; cases h
          | ok args =>
              rw [hargs] at h
              simp only at h
              split_ifs at h with h1 h2
              cases h
              push_neg at h2
              refine ⟨?_, ?_, ?_, ?_, rfl⟩
              · show tbl.fixedCount.getD args.length ≤ args.length
                omega
              · show tbl.variadic.getD false = false →
                  tbl.fixedCount.getD args.length = args.length
                intro hvar
                exact h2 (by simp [hvar])
              · show tbl.fixedCount = none →
                  tbl.fixedCount.getD args.length = args.length
                intro hnone
                simp [hnone]
              · show ∀ n, tbl.fixedCount = some n →
                  tbl.fixedCount.getD args.length = n
                intro n hn
                simp [hn]

/-- Claim C8, witness: the default signature for `int32(int32)` has
`fixed_count` equal to the single argument. -/
theorem claim8_witness :
    Signature.from_table tgt64
      ⟨none, TypeDesc.strD "int32", [TypeDesc.strD "int32"], none, none⟩ =
      Except.ok ⟨AbiChoice.dflt, ⟨TypeCode.int32⟩, [⟨TypeCode.int32⟩], false, 1⟩ ∧
    (⟨AbiChoice.dflt, ⟨TypeCode.int32⟩, [⟨TypeCode.int32⟩], false, 1⟩ :
      Signature).fixed_count =
      (⟨AbiChoice.dflt, ⟨TypeCode.int32⟩, [⟨TypeCode.int32⟩], false, 1⟩ :
        Signature).args.length :=
  ⟨by decide,
    (claim8_signature_invariants tgt64
      ⟨none, TypeDesc.strD "int32", [TypeDesc.strD "int32"], none, none⟩
      ⟨AbiChoice.dflt, ⟨TypeCode.int32⟩, [⟨TypeCode.int32⟩], false, 1⟩
      (by decide)).2.1 rfl⟩


theorem write_result_error_slot (t : Target) (sig : Signature) (v : LuaValue)
    (e : String) (h : (write_result t sig v).2 = some e) :
    (write_result t sig v).1 = zeroSlot := by
  unfold write_result at h ⊢
  cases hr : write_result_bytes t sig v with
  | error e2 => rfl
  | ok c => rw [hr] at h; cases h

/-- Claim C5: whenever any stage of the callback trampoline fails
(argument demarshalling, looking up or running the pinned script
function, or result marshalling), the error is reported through
the host's global `warn` function when one exists and through standard
error otherwise, it is not propagated to the native caller, and the
result slot the native caller observes is fully zeroed. -/
theorem claim5_trampoline_error_capture (t : Target) (cb : CallbackModel) (m : Mem)
    (argPtrs : List Nat) (rep : Report)
    (h : (callback_trampoline t cb m argPtrs).2 = some rep) :
    (callback_trampoline t cb m argPtrs).1 = zeroSlot ∧
    ∃ e, rep = report_error cb e ∧
      (cb.warnPresent = true → rep = Report.warnR ("ffi: error in callback: " ++ e)) ∧
      (cb.warnPresent = false → rep = Report.stderrR ("ffi: error in callback: " ++ e)) := by
  unfold callback_trampoline at h ⊢
  cases hinv : CallbackData.invoke t cb m argPtrs with
  | mk buf err =>
      rw [hinv] at h
      cases err with
      | none => cases h
      | some e =>
          have hrep : rep = report_error cb e := by
            have h' : some (report_error cb e) = some rep := h
            cases h'
            rfl
          have hbuf : buf = zeroSlot := by
            unfold CallbackData.invoke at hinv
            cases hpipe : (do
                let vs ← readCallbackArgs t m argPtrs 0 cb.sig.args
                let f ← get_function cb
                f vs : Except String LuaValue) with
            | error e2 =>
                rw [hpipe] at hinv
                cases hinv
                rfl
            | ok ret =>
                rw [hpipe] at hinv
                have hinv2 : write_result t cb.sig ret = (buf, some e) := hinv
                have h2 : (write_result t cb.sig ret).2 = some e := by rw [hinv2]
                have h1 := write_result_error_slot t cb.sig ret e h2
                rw [hinv2] at h1
                exact h1
          subst hbuf
          refine ⟨rfl, e, hrep, ?_, ?_⟩
          · intro hw
            rw [hrep]
            unfold report_error
            rw [hw, if_pos rfl]
          · intro hw
            rw [hrep]
            unfold report_error
            rw [hw, if_neg Bool.false_ne_true]

/-- Claim C5, witness: a callback whose script function raises reports
through `warn` and leaves the slot zeroed. -/
theorem claim5_witness :
    (callback_trampoline tgt64 cbFail0 zeroMem []).2 =
      some (Report.warnR ("ffi: error in callback: boom")) ∧
    (callback_trampoline tgt64 cbFail0 zeroMem []).1 = zeroSlot :=
  ⟨rfl,
    (claim5_trampoline_error_capture tgt64 cbFail0 zeroMem []
      (Report.warnR ("ffi: error in callback: boom")) rfl).1⟩


end LuneFFI
